import Mathlib

/-!
Verification of the ghostarr newsletter generation core: the progress
tracker (`app/services/progress_tracker.py`), the SSE event manager
(`app/core/events.py`) and the pipeline orchestrator
(`app/services/newsletter_generator.py`), shallowly embedded in Lean.

External collaborators (HTTP integrations, the jinja template engine, the
database) are abstracted by an `Env` of adapter outcomes, exactly at the
interface boundary the code calls them.
-/

namespace Ghostarr

/-- Status of a progress step (`schemas/history.py`, `ProgressStepStatus`). -/
inductive ProgressStepStatus
  | pending
  | running
  | success
  | failed
  | skipped
deriving DecidableEq, Repr

/-- One per pipeline step (`schemas/history.py`, `ProgressStep`).  The wall-clock
fields `started_at`/`completed_at`/`duration_ms` are not modelled (real time). -/
structure ProgressStep where
  step : String
  status : ProgressStepStatus
  items_count : Option Nat
  message : String
  error : Option String
deriving DecidableEq, Repr

/-- Lifecycle status of a generation (`models/history.py`, `GenerationStatus`). -/
inductive GenerationStatus
  | pending
  | running
  | success
  | failed
  | cancelled
deriving DecidableEq, Repr

/-- Progress event for SSE broadcasting (`core/events.py`, `ProgressEvent`).
The free-form `data` payload and the timestamp are not modelled; no claim
concerns them. -/
structure ProgressEvent where
  type : String
  step : String
  progress : Int
  message : String
deriving DecidableEq, Repr

/-- The terminal event types, as the tuple repeated in `core/events.py`
lines 76, 90 and 118. -/
def TERMINAL_EVENT_TYPES : List String :=
  ["generation_complete", "generation_cancelled", "generation_error"]

/-- Whether an event type ends a generation's stream. -/
def ProgressEvent.isTerminal (e : ProgressEvent) : Bool :=
  TERMINAL_EVENT_TYPES.contains e.type

/-- Definition of a generation step (`progress_tracker.py`, `GenerationStep`). -/
structure GenerationStep where
  step_id : String
  name : String
  weight : Nat
deriving DecidableEq, Repr

/-- All generation steps with their weights (`progress_tracker.py` lines 28-38). -/
def GENERATION_STEPS : List GenerationStep :=
  [ ⟨"fetch_tautulli", "Fetching media from Tautulli", 15⟩,
    ⟨"enrich_tmdb", "Enriching with TMDB metadata", 20⟩,
    ⟨"fetch_romm", "Fetching games from ROMM", 10⟩,
    ⟨"fetch_komga", "Fetching books from Komga", 10⟩,
    ⟨"fetch_audiobookshelf", "Fetching audiobooks", 10⟩,
    ⟨"fetch_tunarr", "Fetching TV programming", 10⟩,
    ⟨"fetch_statistics", "Fetching statistics", 10⟩,
    ⟨"render_template", "Rendering template", 10⟩,
    ⟨"publish_ghost", "Publishing to Ghost", 5⟩ ]

/-- Weight for a step (`progress_tracker.py`, `_get_step_weight`). -/
def get_step_weight (step_id : String) : Nat :=
  match GENERATION_STEPS.find? (fun s => s.step_id == step_id) with
  | some s => s.weight
  | none => 0

/-- State of a `ProgressTracker` (`progress_tracker.py`, `ProgressTracker`).
The wall-clock fields `_start_time`/`_step_start_time` are not modelled. -/
structure ProgressTracker where
  enabled_steps : List String
  steps : List ProgressStep
  current_step : Option String
  is_cancelled : Bool
  completed_weight : Nat
  total_weight : Nat
deriving DecidableEq, Repr

/-- The pending record a catalog step is initialized to
(`ProgressTracker.__init__`, the `ProgressStep(...)` construction). -/
def toRec (s : GenerationStep) : ProgressStep :=
  { step := s.step_id, status := .pending, items_count := none,
    message := s.name, error := none }

/-- Tracker construction (`ProgressTracker.__init__`): records only for enabled
steps, total weight the sum of their weights. -/
def initTracker (enabled_steps : List String) : ProgressTracker :=
  { enabled_steps := enabled_steps
    steps := (GENERATION_STEPS.filter
      (fun s => enabled_steps.contains s.step_id)).map toRec
    current_step := none
    is_cancelled := false
    completed_weight := 0
    total_weight := ((GENERATION_STEPS.filter
      (fun s => enabled_steps.contains s.step_id)).map (fun s => s.weight)).sum }

/-- Overall progress percentage (`_calculate_progress`).  The source computes
`min(100, int((completed / total) * 100))` with Python real division and
truncation; for the non-negative weights involved this is the floor of the
exact ratio, embedded here as natural floor division. -/
def ProgressTracker.calculate_progress (t : ProgressTracker) : Nat :=
  if t.total_weight = 0 then 0
  else min 100 (t.completed_weight * 100 / t.total_weight)

/-- Step lookup by id (`_get_step`): first record whose id matches. -/
def findStep (steps : List ProgressStep) (step_id : String) : Option ProgressStep :=
  steps.find? (fun r => r.step == step_id)

/-- Mutation of the record returned by `_get_step`: update the first record
with the given id, leave the rest untouched. -/
def updFirst (f : ProgressStep → ProgressStep) (step_id : String) :
    List ProgressStep → List ProgressStep
  | [] => []
  | r :: rs => if r.step == step_id then f r :: rs else r :: updFirst f step_id rs

/-- Record update performed by `start_step`. -/
def runningUpd (msg : String) (x : ProgressStep) : ProgressStep :=
  { x with status := .running, message := msg }

/-- Record update performed by `complete_step` (with the resolved items count). -/
def successUpd (msg : String) (ic : Option Nat) (x : ProgressStep) : ProgressStep :=
  { x with status := .success, message := msg, items_count := ic }

/-- Record update performed by `skip_step`. -/
def skippedUpd (msg : String) (x : ProgressStep) : ProgressStep :=
  { x with status := .skipped, message := msg }

/-- Record update performed by `fail_step` (and by `cancel_generation` on the
running step, with error "Cancelled"). -/
def failedUpd (err : String) (x : ProgressStep) : ProgressStep :=
  { x with status := .failed, error := some err }

/-- Mark a step as started and broadcast event (`start_step`). -/
def ProgressTracker.start_step (t : ProgressTracker) (step_id : String)
    (message : Option String) : ProgressTracker × List ProgressEvent :=
  if t.is_cancelled then (t, [])
  else
    match findStep t.steps step_id with
    | none => (t, [])
    | some r =>
      let msg := message.getD r.message
      let t' := { t with
        current_step := some step_id
        steps := updFirst (runningUpd msg) step_id t.steps }
      (t', [{ type := "step_start", step := step_id,
              progress := (t'.calculate_progress : Int), message := msg }])

/-- Resolution of `complete_step`'s optional items count against the record:
`if items_count is not None: step.items_count = items_count`. -/
def resolveIc (items_count : Option Nat) (r : ProgressStep) : Option Nat :=
  match items_count with
  | some n => some n
  | none => r.items_count

/-- Mark a step as completed and broadcast event (`complete_step`): status
Success, items count and message updated when given, step weight added to the
completed weight. -/
def ProgressTracker.complete_step (t : ProgressTracker) (step_id : String)
    (message : Option String) (items_count : Option Nat) :
    ProgressTracker × List ProgressEvent :=
  if t.is_cancelled then (t, [])
  else
    match findStep t.steps step_id with
    | none => (t, [])
    | some r =>
      let msg := message.getD r.message
      let ic := resolveIc items_count r
      let t' := { t with
        steps := updFirst (successUpd msg ic) step_id t.steps
        completed_weight := t.completed_weight + get_step_weight step_id }
      (t', [{ type := "step_complete", step := step_id,
              progress := (t'.calculate_progress : Int), message := msg }])

/-- Mark a step as skipped and broadcast event (`skip_step`): weight still
counts as completed so skipped steps do not block reaching 100. -/
def ProgressTracker.skip_step (t : ProgressTracker) (step_id : String)
    (message : String) : ProgressTracker × List ProgressEvent :=
  if t.is_cancelled then (t, [])
  else
    match findStep t.steps step_id with
    | none => (t, [])
    | some _ =>
      let t' := { t with
        steps := updFirst (skippedUpd message) step_id t.steps
        completed_weight := t.completed_weight + get_step_weight step_id }
      (t', [{ type := "step_skipped", step := step_id,
              progress := (t'.calculate_progress : Int), message := message }])

/-- Mark a step as failed and broadcast event (`fail_step`): runs even when
cancelled, records the error, adds no weight. -/
def ProgressTracker.fail_step (t : ProgressTracker) (step_id : String)
    (error : String) : ProgressTracker × List ProgressEvent :=
  match findStep t.steps step_id with
  | none => (t, [])
  | some r =>
    let t' := { t with
      steps := updFirst (failedUpd error) step_id t.steps }
    (t', [{ type := "step_error", step := step_id,
            progress := (t'.calculate_progress : Int), message := r.message }])

/-- Mark generation as complete and broadcast event (`complete_generation`,
with `events.py` `generation_complete` building the event: progress 100). -/
def ProgressTracker.complete_generation (t : ProgressTracker) (message : String) :
    ProgressTracker × List ProgressEvent :=
  (t, [{ type := "generation_complete", step := "complete", progress := 100,
         message := message }])

/-- Mark generation as cancelled and broadcast event (`cancel_generation`,
with `events.py` `generation_cancelled` building the event: progress -1). -/
def ProgressTracker.cancel_generation (t : ProgressTracker) (message : String) :
    ProgressTracker × List ProgressEvent :=
  let t2 :=
    match t.current_step with
    | none => { t with is_cancelled := true }
    | some sid =>
      match findStep t.steps sid with
      | none => { t with is_cancelled := true }
      | some r =>
        if r.status = .running then
          { t with is_cancelled := true,
                   steps := updFirst (failedUpd "Cancelled") sid t.steps }
        else { t with is_cancelled := true }
  (t2, [{ type := "generation_cancelled", step := "cancelled", progress := -1,
          message := message }])

/-! ## Event manager (`core/events.py`, `EventManager`)

The bus is fully partitioned by generation id; we model the state kept for
one id.  The timed history cleanup (`_cleanup_history`) is a real-time
delay and is not modelled; no claim depends on it. -/

/-- Per-generation-id state of the `EventManager`: replay history, the
completed marker, and one pending-event queue per registered subscriber. -/
structure BusState where
  history : List ProgressEvent
  completed : Bool
  subscribers : List (List ProgressEvent)
deriving DecidableEq, Repr

/-- The bus state of a generation id nothing was published for. -/
def busInit : BusState := { history := [], completed := false, subscribers := [] }

/-- Publish an event (`EventManager.publish`): append to the replay history,
mark completed if terminal, push a copy into every subscriber queue. -/
def publish (s : BusState) (e : ProgressEvent) : BusState :=
  { history := s.history ++ [e]
    completed := s.completed || e.isTerminal
    subscribers := s.subscribers.map (fun q => q ++ [e]) }

/-- Replay loop of `EventManager.subscribe` (also the live loop): each event
is yielded, and the sequence stops right after the first terminal event. -/
def replayUpToTerminal : List ProgressEvent → List ProgressEvent
  | [] => []
  | e :: rest => if e.isTerminal then [e] else e :: replayUpToTerminal rest

/-- Events a subscriber receives (`EventManager.subscribe`), given the replay
history at subscription time, the completed marker, and the list `live` of
events published to its queue after subscription: replay the history,
stopping at a terminal event; if the generation is already completed, stop;
otherwise consume the queue, stopping at a terminal event. -/
def subscriberDelivered (history live : List ProgressEvent) (completed : Bool) :
    List ProgressEvent :=
  if history.any ProgressEvent.isTerminal then replayUpToTerminal history
  else if completed then history
  else history ++ replayUpToTerminal live

/-! ## Pipeline orchestrator (`services/newsletter_generator.py`)

Adapter calls (`integrations/*`), credential lookup and the jinja renderer
are external collaborators; an `Env` records the outcome of each call the
pipeline makes.  The date context `datetime.now()` reads at the two
`render_title` call sites are part of `Env` as well. -/

/-- Publication mode (`schemas/generation.py`, `PublicationMode`). -/
inductive PublicationMode
  | draft
  | publish
  | email
  | email_publish
deriving DecidableEq, Repr

/-- Configuration for a content source (`schemas/generation.py`,
`ContentSourceConfig`); only `enabled` steers the orchestrator, the other
fields are forwarded to external adapters. -/
structure ContentSourceConfig where
  enabled : Bool
  days : Nat
  max_items : Int
deriving DecidableEq, Repr

/-- Statistics section configuration (`StatisticsConfig`). -/
structure StatisticsConfig where
  enabled : Bool
  days : Nat
  include_comparison : Bool
deriving DecidableEq, Repr

/-- Maintenance notice configuration (`MaintenanceConfig`), reduced to the
field the orchestrator reads. -/
structure MaintenanceConfig where
  enabled : Bool
deriving DecidableEq, Repr

/-- A date-substitution-only title mini-template.  The source keeps the title
as a jinja string rendered by `template_service.render_title` against the
current date; the external jinja engine is modelled by pre-split fragments:
literal text and date variables. -/
inductive TitleFrag
  | lit (s : String)
  | date_year
  | date_month_num
  | date_day
  | date_week
deriving DecidableEq, Repr

/-- Current date context built by `template_service.render_title` from
`datetime.now()` (numeric fields; the formatted variants are not modelled). -/
structure DateCtx where
  year : Nat
  month_num : Nat
  day : Nat
  week : Nat
deriving DecidableEq, Repr

/-- Resolution of the title template against a date context
(`template_service.render_title`): substitute each date variable. -/
def render_title (title : List TitleFrag) (d : DateCtx) : String :=
  (title.map (fun f =>
    match f with
    | .lit s => s
    | .date_year => toString d.year
    | .date_month_num => toString d.month_num
    | .date_day => toString d.day
    | .date_week => toString d.week)).foldl (fun a b => a ++ b) ""

/-- Full generation configuration (`schemas/generation.py`,
`GenerationConfig`). -/
structure GenerationConfig where
  template_id : String
  title : List TitleFrag
  publication_mode : PublicationMode
  ghost_newsletter_id : Option String
  tautulli : ContentSourceConfig
  romm : ContentSourceConfig
  komga : ContentSourceConfig
  audiobookshelf : ContentSourceConfig
  tunarr : ContentSourceConfig
  statistics : StatisticsConfig
  maintenance : MaintenanceConfig
  max_total_items : Int
  skip_if_empty : Bool
deriving DecidableEq, Repr

/-- Which steps are enabled for a config (`_get_enabled_steps`):
`enrich_tmdb` rides on the tautulli flag, `render_template` and
`publish_ghost` are always appended. -/
def get_enabled_steps (cfg : GenerationConfig) : List String :=
  (if cfg.tautulli.enabled then ["fetch_tautulli", "enrich_tmdb"] else []) ++
  (if cfg.romm.enabled then ["fetch_romm"] else []) ++
  (if cfg.komga.enabled then ["fetch_komga"] else []) ++
  (if cfg.audiobookshelf.enabled then ["fetch_audiobookshelf"] else []) ++
  (if cfg.tunarr.enabled then ["fetch_tunarr"] else []) ++
  (if cfg.statistics.enabled then ["fetch_statistics"] else []) ++
  ["render_template", "publish_ghost"]

/-- Outcome of a credentialed fetch-adapter call: credentials absent, a
successful fetch of `n` items, or a raised exception with text `msg`. -/
inductive FetchOutcome
  | notConfigured
  | items (n : Nat)
  | error (msg : String)
deriving DecidableEq, Repr

/-- Outcome of the Tautulli fetch, split into movies and episodes as
`_fetch_tautulli` separates them. -/
inductive TautulliOutcome
  | notConfigured
  | items (movies episodes : Nat)
  | error (msg : String)
deriving DecidableEq, Repr

/-- Outcome of the template-render step: template record missing, rendered
html, or a raised exception. -/
inductive RenderOutcome
  | templateMissing
  | html (content : String)
  | error (msg : String)
deriving DecidableEq, Repr

/-- Outcome of the Ghost publish step: credentials absent, a created post
(with optional url), a `None` post, or a raised exception. -/
inductive GhostOutcome
  | notConfigured
  | post (post_id : String) (url : Option String)
  | noPost
  | error (msg : String)
deriving DecidableEq, Repr

/-- Environment of one run: the outcome of every external call the pipeline
makes, the date contexts observed at the two `render_title` call sites, and
the step boundary (if any) at which an external `cancel_generation` request
lands. -/
structure Env where
  tautulli : TautulliOutcome
  tmdb : FetchOutcome
  romm : FetchOutcome
  komga : FetchOutcome
  audiobookshelf : FetchOutcome
  tunarr : FetchOutcome
  statistics : FetchOutcome
  render : RenderOutcome
  ghost : GhostOutcome
  renderDate : DateCtx
  publishDate : DateCtx
  cancelAt : Option Nat
deriving DecidableEq, Repr

/-- Mutable state of a `NewsletterGenerator` during `_execute_pipeline`:
the tracker, the events published so far, the collected item counts, and
the values relevant to title resolution and publishing. -/
structure PipelineState where
  tracker : ProgressTracker
  events : List ProgressEvent
  movies : Nat
  series : Nat
  games : Nat
  books : Nat
  audiobooks : Nat
  tv_programs : Nat
  statsFetched : Bool
  renderedTitle : Option String
  publishedTitle : Option String
  ghost_post_id : Option String
deriving DecidableEq, Repr

/-- Run one tracker operation and append the events it broadcasts. -/
def PipelineState.run (st : PipelineState)
    (op : ProgressTracker → ProgressTracker × List ProgressEvent) : PipelineState :=
  { st with tracker := (op st.tracker).1, events := st.events ++ (op st.tracker).2 }

/-- Total collected items (`_get_total_items`). -/
def PipelineState.total_items (st : PipelineState) : Nat :=
  st.movies + st.series + st.games + st.books + st.audiobooks + st.tv_programs

/-- Message of a `GenerationError` (`core/exceptions.py`): the step name is
baked into the text. -/
def genErrMsg (step msg : String) : String :=
  "Generation failed at " ++ step ++ ": " ++ msg

/-- A fatal step error in flight: the raising step, the full
`GenerationError` text, and the pipeline state at the raise. -/
structure FatalError where
  step : String
  errText : String
  st : PipelineState
deriving Repr

/-- Fetch media from Tautulli (`_fetch_tautulli`): skip when disabled or not
configured, split counts on success, fail-and-raise on error (fatal). -/
def fetch_tautulli (cfg : GenerationConfig) (env : Env) (st : PipelineState) :
    Except FatalError PipelineState :=
  if !cfg.tautulli.enabled then
    .ok (st.run (fun t => t.skip_step "fetch_tautulli" "Disabled"))
  else
    let st := st.run (fun t => t.start_step "fetch_tautulli"
      (some "Fetching media from Tautulli..."))
    match env.tautulli with
    | .notConfigured =>
      .ok (st.run (fun t => t.skip_step "fetch_tautulli" "Not configured"))
    | .items m s =>
      let st := { st with movies := m, series := s }
      .ok (st.run (fun t => t.complete_step "fetch_tautulli"
        (some ("Found " ++ toString m ++ " movies, " ++ toString s ++ " episodes"))
        (some (m + s))))
    | .error msg =>
      let st := st.run (fun t => t.fail_step "fetch_tautulli" msg)
      .error { step := "fetch_tautulli", errText := genErrMsg "fetch_tautulli" msg, st := st }

/-- Enrich media with TMDB metadata (`_enrich_tmdb`): skip when tautulli is
disabled or nothing was fetched; an adapter error is non-fatal and completes
the step with zero items. -/
def enrich_tmdb (cfg : GenerationConfig) (env : Env) (st : PipelineState) :
    PipelineState :=
  if !cfg.tautulli.enabled || (st.movies = 0 && st.series = 0) then
    st.run (fun t => t.skip_step "enrich_tmdb" "No media to enrich")
  else
    let st := st.run (fun t => t.start_step "enrich_tmdb"
      (some "Enriching with TMDB metadata..."))
    match env.tmdb with
    | .notConfigured => st.run (fun t => t.skip_step "enrich_tmdb" "TMDB not configured")
    | .items n =>
      st.run (fun t => t.complete_step "enrich_tmdb"
        (some ("Enriched " ++ toString n ++ " items")) (some n))
    | .error _ =>
      st.run (fun t => t.complete_step "enrich_tmdb"
        (some "Enrichment failed, continuing") (some 0))

/-- Common shape of the four optional source fetches (`_fetch_romm`,
`_fetch_komga`, `_fetch_audiobookshelf`, `_fetch_tunarr`): skip when disabled
or not configured, record the item count on success, and on an adapter error
complete non-fatally with zero items. -/
def fetch_optional_source (enabled : Bool) (outcome : FetchOutcome) (sid : String)
    (startMsg : String) (foundMsg : Nat → String)
    (setCount : Nat → PipelineState → PipelineState) (st : PipelineState) :
    PipelineState :=
  if !enabled then st.run (fun t => t.skip_step sid "Disabled")
  else
    let st := st.run (fun t => t.start_step sid (some startMsg))
    match outcome with
    | .notConfigured => st.run (fun t => t.skip_step sid "Not configured")
    | .items n =>
      let st := setCount n st
      st.run (fun t => t.complete_step sid (some (foundMsg n)) (some n))
    | .error _ =>
      st.run (fun t => t.complete_step sid (some "Fetch failed, continuing") (some 0))

/-- Fetch games from ROMM (`_fetch_romm`). -/
def fetch_romm (cfg : GenerationConfig) (env : Env) (st : PipelineState) : PipelineState :=
  fetch_optional_source cfg.romm.enabled env.romm "fetch_romm"
    "Fetching games from ROMM..." (fun n => "Found " ++ toString n ++ " games")
    (fun n st => { st with games := n }) st

/-- Fetch books from Komga (`_fetch_komga`). -/
def fetch_komga (cfg : GenerationConfig) (env : Env) (st : PipelineState) : PipelineState :=
  fetch_optional_source cfg.komga.enabled env.komga "fetch_komga"
    "Fetching books from Komga..." (fun n => "Found " ++ toString n ++ " books")
    (fun n st => { st with books := n }) st

/-- Fetch audiobooks from Audiobookshelf (`_fetch_audiobookshelf`). -/
def fetch_audiobookshelf (cfg : GenerationConfig) (env : Env) (st : PipelineState) :
    PipelineState :=
  fetch_optional_source cfg.audiobookshelf.enabled env.audiobookshelf
    "fetch_audiobookshelf" "Fetching audiobooks..."
    (fun n => "Found " ++ toString n ++ " audiobooks")
    (fun n st => { st with audiobooks := n }) st

/-- Fetch TV programming from Tunarr (`_fetch_tunarr`). -/
def fetch_tunarr (cfg : GenerationConfig) (env : Env) (st : PipelineState) : PipelineState :=
  fetch_optional_source cfg.tunarr.enabled env.tunarr "fetch_tunarr"
    "Fetching TV programming..." (fun n => "Found " ++ toString n ++ " programs")
    (fun n st => { st with tv_programs := n }) st

/-- Fetch statistics from Tautulli (`_fetch_statistics`): uses the tautulli
credentials; the nested TMDB statistics enrichment catches all its own
errors and never reaches the tracker, so it is absorbed into the success
outcome.  Completes with item count 1 on success, 0 on a soft error. -/
def fetch_statistics (cfg : GenerationConfig) (env : Env) (st : PipelineState) :
    PipelineState :=
  if !cfg.statistics.enabled then
    st.run (fun t => t.skip_step "fetch_statistics" "Disabled")
  else
    let st := st.run (fun t => t.start_step "fetch_statistics" (some "Fetching statistics..."))
    match env.statistics with
    | .notConfigured =>
      st.run (fun t => t.skip_step "fetch_statistics" "Tautulli not configured")
    | .items n =>
      let st := { st with statsFetched := true }
      st.run (fun t => t.complete_step "fetch_statistics"
        (some ("Total plays: " ++ toString n)) (some 1))
    | .error _ =>
      st.run (fun t => t.complete_step "fetch_statistics"
        (some "Fetch failed, continuing") (some 0))

/-- Render the newsletter template (`_render_template`): resolves the title
into the rendering context from the date observed at this call, completes on
success; a missing template record or a renderer exception is fatal.  A
`GenerationError` raised inside the step is itself re-wrapped by the step's
own failure boundary, mirroring the double wrapping in the source. -/
def render_template (cfg : GenerationConfig) (env : Env) (st : PipelineState) :
    Except FatalError (PipelineState × String) :=
  let st := st.run (fun t => t.start_step "render_template" (some "Rendering newsletter..."))
  match env.render with
  | .templateMissing =>
    let e1 := genErrMsg "render_template" "Template not found"
    let st := st.run (fun t => t.fail_step "render_template" e1)
    .error { step := "render_template", errText := genErrMsg "render_template" e1, st := st }
  | .error msg =>
    let st := st.run (fun t => t.fail_step "render_template" msg)
    .error { step := "render_template", errText := genErrMsg "render_template" msg, st := st }
  | .html content =>
    let st := { st with renderedTitle := some (render_title cfg.title env.renderDate) }
    let st := st.run (fun t => t.complete_step "render_template"
      (some "Template rendered successfully") (some 1))
    .ok (st, content)

/-- Status string sent to Ghost for a publication mode (`_publish_ghost`). -/
def publishStatusStr (m : PublicationMode) : String :=
  match m with
  | .draft => "draft"
  | .publish => "published"
  | .email => "published"
  | .email_publish => "published"

/-- Publish to Ghost (`_publish_ghost`): skip when not configured; the title
is resolved again here, from the date observed at this call; a created post
records its id and returns its url; an adapter error is fatal. -/
def publish_ghost (cfg : GenerationConfig) (env : Env) (st : PipelineState) :
    Except FatalError (PipelineState × Option String) :=
  let st := st.run (fun t => t.start_step "publish_ghost" (some "Publishing to Ghost..."))
  match env.ghost with
  | .notConfigured =>
    .ok (st.run (fun t => t.skip_step "publish_ghost" "Ghost not configured"), none)
  | .post pid url =>
    let status := publishStatusStr cfg.publication_mode
    let st := { st with publishedTitle := some (render_title cfg.title env.publishDate),
                        ghost_post_id := some pid }
    let st := st.run (fun t => t.complete_step "publish_ghost"
      (some ("Published as " ++ status)) (some 1))
    .ok (st, url)
  | .noPost =>
    let st := { st with publishedTitle := some (render_title cfg.title env.publishDate) }
    let st := st.run (fun t => t.complete_step "publish_ghost" (some "Published") (some 1))
    .ok (st, none)
  | .error msg =>
    let st := { st with publishedTitle := some (render_title cfg.title env.publishDate) }
    let st := st.run (fun t => t.fail_step "publish_ghost" msg)
    .error { step := "publish_ghost", errText := genErrMsg "publish_ghost" msg, st := st }

/-- One `if self._is_cancelled()` boundary: if the external cancel request
lands at boundary `k`, the module-level `cancel_generation` has invoked
`tracker.cancel_generation()` (default message) before the check runs. -/
def checkpoint (env : Env) (k : Nat) (st : PipelineState) : PipelineState :=
  if env.cancelAt = some k then
    st.run (fun t => t.cancel_generation "Generation cancelled")
  else st

/-- Outcome of the step sequence of `_execute_pipeline`. -/
inductive PipeOutcome
  | completed (st : PipelineState) (ghostUrl : Option String) (totalItems : Nat)
  | skippedEmpty (st : PipelineState)
  | cancelled (st : PipelineState)
  | fatal (f : FatalError)
deriving Repr

/-- Initial pipeline state: tracker over the enabled steps, with the
`generation_started` event already broadcast (`broadcast_started`). -/
def initPipelineState (cfg : GenerationConfig) : PipelineState :=
  { tracker := initTracker (get_enabled_steps cfg)
    events := [{ type := "generation_started", step := "", progress := 0,
                 message := "Generation started" }]
    movies := 0, series := 0, games := 0, books := 0, audiobooks := 0
    tv_programs := 0, statsFetched := false
    renderedTitle := none, publishedTitle := none, ghost_post_id := none }

/-- The step sequence of `_execute_pipeline`, with the cancellation check
after every step and the skip-if-empty short circuit before rendering. -/
def runSteps (cfg : GenerationConfig) (env : Env) : PipeOutcome :=
  let st0 := initPipelineState cfg
  match fetch_tautulli cfg env st0 with
  | .error f => .fatal f
  | .ok st1 =>
    let st1 := checkpoint env 0 st1
    if st1.tracker.is_cancelled then .cancelled st1 else
    let st2 := checkpoint env 1 (enrich_tmdb cfg env st1)
    if st2.tracker.is_cancelled then .cancelled st2 else
    let st3 := checkpoint env 2 (fetch_romm cfg env st2)
    if st3.tracker.is_cancelled then .cancelled st3 else
    let st4 := checkpoint env 3 (fetch_komga cfg env st3)
    if st4.tracker.is_cancelled then .cancelled st4 else
    let st5 := checkpoint env 4 (fetch_audiobookshelf cfg env st4)
    if st5.tracker.is_cancelled then .cancelled st5 else
    let st6 := checkpoint env 5 (fetch_tunarr cfg env st5)
    if st6.tracker.is_cancelled then .cancelled st6 else
    let st7 := checkpoint env 6 (fetch_statistics cfg env st6)
    if st7.tracker.is_cancelled then .cancelled st7 else
    let total := st7.total_items
    if cfg.skip_if_empty && total = 0 then
      .skippedEmpty (st7.run (fun t => t.complete_generation "Skipped: no new content"))
    else
      match render_template cfg env st7 with
      | .error f => .fatal f
      | .ok (st8, _) =>
        let st8 := checkpoint env 7 st8
        if st8.tracker.is_cancelled then .cancelled st8 else
        match publish_ghost cfg env st8 with
        | .error f => .fatal f
        | .ok (st9, url) =>
          .completed (st9.run (fun t =>
            t.complete_generation "Newsletter generated successfully")) url total

/-- Result of one run as persisted into `History`, plus the final pipeline
state.  `fatalStep` records the step of the caught `GenerationError` (its
`step` attribute), `none` when no fatal error occurred. -/
structure RunResult where
  status : GenerationStatus
  error_message : Option String
  items_count : Option Nat
  ghost_post_url : Option String
  fatalStep : Option String
  st : PipelineState
deriving Repr

/-- Cancellation handling (`_handle_cancellation`): status Cancelled, fixed
error message, one more `tracker.cancel_generation` call. -/
def handle_cancellation (st : PipelineState) : RunResult :=
  let st := st.run (fun t => t.cancel_generation "Generation cancelled by user")
  { status := .cancelled, error_message := some "Cancelled by user",
    items_count := none, ghost_post_url := none, fatalStep := none, st := st }

/-- Full `_execute_pipeline`: map the step-sequence outcome to the persisted
result; a fatal error marks the result Failed with the `GenerationError`
text and fails the current step (`except Exception` branch, lines 205-211). -/
def execute_pipeline (cfg : GenerationConfig) (env : Env) : RunResult :=
  match runSteps cfg env with
  | .completed st url total =>
    { status := .success, error_message := none, items_count := some total,
      ghost_post_url := url, fatalStep := none, st := st }
  | .skippedEmpty st =>
    { status := .success, error_message := some "Skipped: no new content",
      items_count := some 0, ghost_post_url := none, fatalStep := none, st := st }
  | .cancelled st => handle_cancellation st
  | .fatal f =>
    let st :=
      match f.st.tracker.current_step with
      | some sid => f.st.run (fun t => t.fail_step sid f.errText)
      | none => f.st
    { status := .failed, error_message := some f.errText, items_count := none,
      ghost_post_url := none, fatalStep := some f.step, st := st }

/-! ## Basic claims: the progress formula and the enabled-step set -/

/-- C8: For every tracker state, the computed progress equals
`floor(min(100, completedWeight/totalWeight * 100))` when `totalWeight > 0`,
and equals `0` when `totalWeight = 0`. -/
theorem C8_progress_formula (t : ProgressTracker) :
    (t.calculate_progress : Int) =
      if t.total_weight = 0 then 0
      else Int.floor (min (100 : ℚ)
        ((t.completed_weight : ℚ) / (t.total_weight : ℚ) * 100)) := by
  unfold ProgressTracker.calculate_progress
  by_cases h : t.total_weight = 0
  · simp [h]
  · simp only [h, if_false]
    have hq : (t.completed_weight : ℚ) / (t.total_weight : ℚ) * 100
        = ((t.completed_weight * 100 : ℕ) : ℚ) / ((t.total_weight : ℕ) : ℚ) := by
      push_cast
      ring
    rw [hq]
    have h0 : (0 : ℚ) ≤ ((t.completed_weight * 100 : ℕ) : ℚ) / ((t.total_weight : ℕ) : ℚ) :=
      div_nonneg (Nat.cast_nonneg _) (Nat.cast_nonneg _)
    have hfl : Int.floor (((t.completed_weight * 100 : ℕ) : ℚ) / ((t.total_weight : ℕ) : ℚ))
        = ((t.completed_weight * 100 / t.total_weight : ℕ) : ℤ) := by
      rw [← Int.natCast_floor_eq_floor h0, Nat.floor_div_eq_div]
    rcases le_total (100 : ℚ)
        (((t.completed_weight * 100 : ℕ) : ℚ) / ((t.total_weight : ℕ) : ℚ)) with hle | hle
    · have hnat : (100 : ℕ) ≤ t.completed_weight * 100 / t.total_weight := by
        have h100 : ((100 : ℤ) : ℚ) ≤
            ((t.completed_weight * 100 : ℕ) : ℚ) / ((t.total_weight : ℕ) : ℚ) := by
          exact_mod_cast hle
        have := Int.le_floor.mpr h100
        rw [hfl] at this
        exact_mod_cast this
      rw [min_eq_left hle, min_eq_left hnat]
      simp
    · have hnat : t.completed_weight * 100 / t.total_weight ≤ 100 := by
        have hf := Int.floor_le_floor hle
        rw [hfl] at hf
        have h100 : Int.floor ((100 : ℚ)) = (100 : ℤ) := by
          exact_mod_cast Int.floor_intCast (α := ℚ) 100
        rw [h100] at hf
        exact_mod_cast hf
      rw [min_eq_right hle, min_eq_right hnat, hfl]

/-- C10: `enrich_tmdb` is enabled exactly when the tautulli source is
enabled, and `render_template` and `publish_ghost` are always enabled. -/
theorem C10_enabled_steps (cfg : GenerationConfig) :
    ("enrich_tmdb" ∈ get_enabled_steps cfg ↔ cfg.tautulli.enabled = true)
    ∧ "render_template" ∈ get_enabled_steps cfg
    ∧ "publish_ghost" ∈ get_enabled_steps cfg := by
  unfold get_enabled_steps
  refine ⟨?_, ?_, ?_⟩ <;> split_ifs <;> simp_all

/-! ## Event-bus claims: terminal truncation and replay -/

/-- Replay of a list headed by a terminal event stops at that event. -/
lemma replay_cons_true (e : ProgressEvent) (l : List ProgressEvent)
    (h : e.isTerminal = true) : replayUpToTerminal (e :: l) = [e] := by
  simp [replayUpToTerminal, h]

/-- Replay of a list headed by a non-terminal event keeps going. -/
lemma replay_cons_false (e : ProgressEvent) (l : List ProgressEvent)
    (h : e.isTerminal = false) :
    replayUpToTerminal (e :: l) = e :: replayUpToTerminal l := by
  simp [replayUpToTerminal, h]

/-- The replay loop yields a prefix of the event list. -/
lemma replayUpToTerminal_isPrefix (l : List ProgressEvent) :
    replayUpToTerminal l <+: l := by
  induction l with
  | nil => exact List.nil_prefix
  | cons e rest ih =>
    cases h : e.isTerminal with
    | true => exact ⟨rest, by rw [replay_cons_true e rest h]; rfl⟩
    | false =>
      obtain ⟨t, ht⟩ := ih
      exact ⟨t, by rw [replay_cons_false e rest h, List.cons_append, ht]⟩

/-- Every event the replay loop yields before its last one is non-terminal. -/
lemma replayUpToTerminal_dropLast (l : List ProgressEvent) :
    ∀ e ∈ (replayUpToTerminal l).dropLast, e.isTerminal = false := by
  induction l with
  | nil => intro e he; simp [replayUpToTerminal] at he
  | cons x rest ih =>
    intro e he
    cases h : x.isTerminal with
    | true => rw [replay_cons_true x rest h] at he; simp at he
    | false =>
      rw [replay_cons_false x rest h] at he
      cases hr : replayUpToTerminal rest with
      | nil => rw [hr] at he; simp at he
      | cons y ys =>
        rw [hr, List.dropLast_cons₂] at he
        rcases List.mem_cons.mp he with rfl | hmem
        · exact h
        · exact ih e (by rw [hr]; exact hmem)

/-- When no terminal event occurs before the last element, the replay loop
yields the whole list. -/
lemma replayUpToTerminal_eq_self (l : List ProgressEvent)
    (h : ∀ e ∈ l.dropLast, e.isTerminal = false) : replayUpToTerminal l = l := by
  induction l with
  | nil => rfl
  | cons x rest ih =>
    cases rest with
    | nil =>
      cases h2 : x.isTerminal
      · rw [replay_cons_false x [] h2]; rfl
      · rw [replay_cons_true x [] h2]
    | cons y ys =>
      have hx : x.isTerminal = false :=
        h x (by rw [List.dropLast_cons₂]; exact List.mem_cons_self _ _)
      rw [replay_cons_false x (y :: ys) hx]
      rw [ih (fun e he => h e (by rw [List.dropLast_cons₂]; exact List.mem_cons_of_mem _ he))]

/-- C4: once a terminal event has been delivered to a subscriber — whether
during history replay or from the live queue — its sequence ends there: every
delivered event other than the last is non-terminal, and any delivered
terminal event is the final delivered event, so no later-published event
reaches that subscriber. -/
theorem C4_terminal_truncation (hist live : List ProgressEvent) (completed : Bool) :
    (∀ e ∈ (subscriberDelivered hist live completed).dropLast, e.isTerminal = false)
    ∧ (∀ pre t post, subscriberDelivered hist live completed = pre ++ t :: post →
        t.isTerminal = true → post = []) := by
  have main : ∀ e ∈ (subscriberDelivered hist live completed).dropLast,
      e.isTerminal = false := by
    unfold subscriberDelivered
    split_ifs with h1 h2
    · exact replayUpToTerminal_dropLast hist
    · intro e he
      have hmem : e ∈ hist := List.dropLast_sublist hist |>.mem he
      have h1' : ∀ x ∈ hist, x.isTerminal = false := by
        intro x hx
        have := (List.any_eq_false).mp (Bool.not_eq_true _ |>.mp h1) x hx
        exact Bool.not_eq_true _ |>.mp this
      exact h1' e hmem
    · intro e he
      have h1' : ∀ x ∈ hist, x.isTerminal = false := by
        intro x hx
        have := (List.any_eq_false).mp (Bool.not_eq_true _ |>.mp h1) x hx
        exact Bool.not_eq_true _ |>.mp this
      cases hr : replayUpToTerminal live with
      | nil =>
        rw [hr, List.append_nil] at he
        exact h1' e (List.dropLast_sublist hist |>.mem he)
      | cons y ys =>
        rw [hr, List.dropLast_append_cons] at he
        rcases List.mem_append.mp he with hmem | hmem
        · exact h1' e hmem
        · have := replayUpToTerminal_dropLast live e
          rw [hr] at this
          exact this hmem
  refine ⟨main, ?_⟩
  intro pre t post heq hterm
  by_contra hpost
  cases post with
  | nil => exact hpost rfl
  | cons z zs =>
    have hmem : t ∈ (subscriberDelivered hist live completed).dropLast := by
      rw [heq, List.dropLast_append_cons]
      refine List.mem_append.mpr (Or.inr ?_)
      rw [List.dropLast_cons₂]
      exact List.mem_cons_self _ _
    rw [main t hmem] at hterm
    exact Bool.false_ne_true hterm

/-- Concrete non-terminal event used in bus witnesses. -/
def evStart : ProgressEvent :=
  { type := "step_start", step := "fetch_tautulli", progress := 0, message := "start" }

/-- Concrete terminal event used in bus witnesses. -/
def evDone : ProgressEvent :=
  { type := "generation_complete", step := "complete", progress := 100, message := "done" }

/-- Witness for C4 at a concrete history whose terminal event is followed by
nothing: the event delivered before the terminal one is non-terminal. -/
theorem C4_terminal_truncation_witness : evStart.isTerminal = false :=
  (C4_terminal_truncation [evStart, evDone] [] false).1 evStart (by decide)

/-- C5 as stated is false: when a terminal event sits in the middle of the
already-published history, replay truncates at it, so a late subscriber does
not receive all previously published events.  Two publishes — a terminal
event, then another event — produce a bus state whose full history is not a
prefix of what a new subscriber receives. -/
theorem C5_counterexample :
    ¬ [evDone, evStart] <+:
      subscriberDelivered (publish (publish busInit evDone) evStart).history []
        (publish (publish busInit evDone) evStart).completed := by
  decide

/-- C5 amended: provided no terminal event occurs among the previously
published events except possibly the last one, a subscriber first receives
exactly the k already-published events in publication order, followed only
by (a prefix of) the events published after the subscription. -/
theorem C5_replay_amended (hist live : List ProgressEvent) (completed : Bool)
    (h : ∀ e ∈ hist.dropLast, e.isTerminal = false) :
    ∃ s, subscriberDelivered hist live completed = hist ++ s ∧ s <+: live := by
  unfold subscriberDelivered
  split_ifs with h1 h2
  · exact ⟨[], by rw [replayUpToTerminal_eq_self hist h, List.append_nil], List.nil_prefix⟩
  · exact ⟨[], by rw [List.append_nil], List.nil_prefix⟩
  · exact ⟨replayUpToTerminal live, rfl, replayUpToTerminal_isPrefix live⟩

/-- Witness for the amended C5 at a concrete terminal-free history. -/
theorem C5_replay_amended_witness :
    ∃ s, subscriberDelivered [evStart] [evDone] false = [evStart] ++ s ∧ s <+: [evDone] :=
  C5_replay_amended [evStart] [evDone] false (by decide)

/-! ## Record-update lemmas

The tracker mutates the record returned by `_get_step`; all its updates
preserve the record's step id. -/

/-- Updating the first record with a given id leaves lookups of that id
related by the update. -/
lemma updFirst_findStep_self (f : ProgressStep → ProgressStep) (sid : String)
    (l : List ProgressStep) (hkey : ∀ r, (f r).step = r.step) :
    findStep (updFirst f sid l) sid = (findStep l sid).map f := by
  induction l with
  | nil => rfl
  | cons r rs ih =>
    by_cases h : r.step = sid
    · simp [updFirst, findStep, List.find?_cons, h, hkey r]
    · have hb : (r.step == sid) = false := by simp [h]
      simp only [updFirst, hb, Bool.false_eq_true, if_false, findStep, List.find?_cons]
      simpa [findStep] using ih

/-- Updating the first record with one id does not change lookups of any
other id. -/
lemma updFirst_findStep_other (f : ProgressStep → ProgressStep) (sid sid' : String)
    (l : List ProgressStep) (hkey : ∀ r, (f r).step = r.step) (hne : sid' ≠ sid) :
    findStep (updFirst f sid l) sid' = findStep l sid' := by
  induction l with
  | nil => rfl
  | cons r rs ih =>
    by_cases h : r.step = sid
    · have hb : (r.step == sid) = true := by simp [h]
      have h1 : ((f r).step == sid') = false := by
        rw [hkey r, h]
        simp
        exact fun hc => hne hc.symm
      have h2 : (r.step == sid') = false := by
        rw [h]
        simp
        exact fun hc => hne hc.symm
      simp only [updFirst, hb, if_true, findStep, List.find?_cons, h1, h2]
    · have hb : (r.step == sid) = false := by simp [h]
      simp only [updFirst, hb, Bool.false_eq_true, if_false, findStep, List.find?_cons]
      cases h2 : r.step == sid' with
      | true => simp [h2]
      | false =>
        simp only [h2]
        simpa [findStep] using ih

/-! ## C3: cancellation semantics of the tracker -/

/-- C3: `cancel_generation` sets the cancellation flag, force-marks the
currently Running step (if any) Failed with error "Cancelled", emits a single
`generation_cancelled` event with the progress sentinel -1, and afterwards
`start_step`, `complete_step` and `skip_step` on the resulting tracker are
no-ops: they change no state and emit no event. -/
theorem C3_cancel_semantics (t : ProgressTracker) (msg : String) :
    ((t.cancel_generation msg).2 =
      [{ type := "generation_cancelled", step := "cancelled", progress := -1,
         message := msg }])
    ∧ (t.cancel_generation msg).1.is_cancelled = true
    ∧ (∀ sid r, t.current_step = some sid →
        findStep t.steps sid = some r → r.status = .running →
        findStep (t.cancel_generation msg).1.steps sid =
          some { r with status := .failed, error := some "Cancelled" })
    ∧ (∀ sid m ic sm,
        (t.cancel_generation msg).1.start_step sid m = ((t.cancel_generation msg).1, [])
        ∧ (t.cancel_generation msg).1.complete_step sid m ic
            = ((t.cancel_generation msg).1, [])
        ∧ (t.cancel_generation msg).1.skip_step sid sm
            = ((t.cancel_generation msg).1, [])) := by
  have hcancelled : (t.cancel_generation msg).1.is_cancelled = true := by
    cases hc : t.current_step with
    | none => simp [ProgressTracker.cancel_generation, hc]
    | some sid =>
      cases hf : findStep t.steps sid with
      | none => simp [ProgressTracker.cancel_generation, hc, hf]
      | some r =>
        by_cases h : r.status = .running <;>
          simp [ProgressTracker.cancel_generation, hc, hf, h]
  refine ⟨rfl, hcancelled, ?_, ?_⟩
  · intro sid r hcs hfind hrun
    have ht2 : (t.cancel_generation msg).1.steps =
        updFirst (failedUpd "Cancelled") sid t.steps := by
      simp [ProgressTracker.cancel_generation, hcs, hfind, hrun]
    rw [ht2]
    rw [updFirst_findStep_self (failedUpd "Cancelled") sid t.steps (fun _ => rfl), hfind]
    rfl
  · intro sid m ic sm
    refine ⟨?_, ?_, ?_⟩
    · simp [ProgressTracker.start_step, hcancelled]
    · simp [ProgressTracker.complete_step, hcancelled]
    · simp [ProgressTracker.skip_step, hcancelled]

/-- Tracker with a running `fetch_tautulli` step, for the C3 witness. -/
def trackerCancelDemo : ProgressTracker :=
  ((initTracker ["fetch_tautulli", "render_template", "publish_ghost"]).start_step
    "fetch_tautulli" none).1

/-- Witness for C3: cancelling while `fetch_tautulli` is running marks that
record Failed with error "Cancelled". -/
theorem C3_cancel_semantics_witness :
    findStep ((trackerCancelDemo.cancel_generation "stop").1).steps "fetch_tautulli" =
      some { step := "fetch_tautulli", status := .failed, items_count := none,
             message := "Fetching media from Tautulli", error := some "Cancelled" } :=
  (C3_cancel_semantics trackerCancelDemo "stop").2.2.1 "fetch_tautulli"
    { step := "fetch_tautulli", status := .running, items_count := none,
      message := "Fetching media from Tautulli", error := none }
    (by decide) (by decide) rfl

/-! ## Weight accounting over step records -/

/-- Whether a record counts as progressed: completed or skipped steps both
contribute their weight. -/
def isDone (r : ProgressStep) : Bool :=
  match r.status with
  | .success => true
  | .skipped => true
  | _ => false

/-- Sum of the weights of the completed or skipped steps of a record list. -/
def sumDoneW (l : List ProgressStep) : Nat :=
  ((l.filter isDone).map (fun r => get_step_weight r.step)).sum

/-- Sum of the weights of all steps of a record list. -/
def sumAllW (l : List ProgressStep) : Nat :=
  (l.map (fun r => get_step_weight r.step)).sum

/-- The pipeline's step ids in execution order. -/
def stepIds : List String :=
  ["fetch_tautulli", "enrich_tmdb", "fetch_romm", "fetch_komga",
   "fetch_audiobookshelf", "fetch_tunarr", "fetch_statistics",
   "render_template", "publish_ghost"]

lemma sumDoneW_cons (r : ProgressStep) (l : List ProgressStep) :
    sumDoneW (r :: l) = (if isDone r then get_step_weight r.step else 0) + sumDoneW l := by
  cases h : isDone r <;> simp [sumDoneW, List.filter_cons, h]

lemma sumAllW_eq_of_map_eq (l l' : List ProgressStep)
    (h : l.map (fun r => r.step) = l'.map (fun r => r.step)) : sumAllW l = sumAllW l' := by
  have h1 : sumAllW l = ((l.map (fun r => r.step)).map get_step_weight).sum := by
    rw [List.map_map]
    rfl
  have h2 : sumAllW l' = ((l'.map (fun r => r.step)).map get_step_weight).sum := by
    rw [List.map_map]
    rfl
  rw [h1, h2, h]

lemma sumDoneW_eq_sumAllW_of_all_done (l : List ProgressStep)
    (h : ∀ r ∈ l, isDone r = true) : sumDoneW l = sumAllW l := by
  unfold sumDoneW sumAllW
  rw [List.filter_eq_self.mpr h]

/-- Key preservation of record updates keeps the id sequence unchanged. -/
lemma updFirst_map_step (f : ProgressStep → ProgressStep) (sid : String)
    (l : List ProgressStep) (hkey : ∀ r, (f r).step = r.step) :
    (updFirst f sid l).map (fun r => r.step) = l.map (fun r => r.step) := by
  induction l with
  | nil => rfl
  | cons r rs ih =>
    by_cases h : r.step = sid
    · have hb : (r.step == sid) = true := by simp [h]
      simp [updFirst, hb, hkey r]
    · have hb : (r.step == sid) = false := by simp [h]
      simp [updFirst, hb, ih]

/-- Records with a different id survive a first-match update unchanged. -/
lemma updFirst_mem (f : ProgressStep → ProgressStep) (sid : String)
    (l : List ProgressStep) (hkey : ∀ r, (f r).step = r.step) :
    ∀ x ∈ updFirst f sid l, x.step ≠ sid → x ∈ l := by
  induction l with
  | nil => intro x hx; simp [updFirst] at hx
  | cons r rs ih =>
    intro x hx hne
    by_cases h : r.step = sid
    · have hb : (r.step == sid) = true := by simp [h]
      rw [updFirst, if_pos hb] at hx
      rcases List.mem_cons.mp hx with rfl | hmem
      · exact absurd (by rw [hkey r, h]) hne
      · exact List.mem_cons_of_mem _ hmem
    · have hb : (r.step == sid) = false := by simp [h]
      rw [updFirst, if_neg (by simp [hb])] at hx
      rcases List.mem_cons.mp hx with rfl | hmem
      · exact List.mem_cons_self _ _
      · exact List.mem_cons_of_mem _ (ih x hmem hne)

/-- Any record of a first-match update is an original record or the image of
one. -/
lemma updFirst_mem_cases (f : ProgressStep → ProgressStep) (sid : String)
    (l : List ProgressStep) : ∀ x ∈ updFirst f sid l, x ∈ l ∨ ∃ y, y ∈ l ∧ x = f y := by
  induction l with
  | nil => intro x hx; simp [updFirst] at hx
  | cons r rs ih =>
    intro x hx
    by_cases h : r.step = sid
    · have hb : (r.step == sid) = true := by simp [h]
      rw [updFirst, if_pos hb] at hx
      rcases List.mem_cons.mp hx with rfl | hmem
      · exact Or.inr ⟨r, List.mem_cons_self _ _, rfl⟩
      · exact Or.inl (List.mem_cons_of_mem _ hmem)
    · have hb : (r.step == sid) = false := by simp [h]
      rw [updFirst, if_neg (by simp [hb])] at hx
      rcases List.mem_cons.mp hx with rfl | hmem
      · exact Or.inl (List.mem_cons_self _ _)
      · rcases ih x hmem with hm | ⟨y, hy, hxy⟩
        · exact Or.inl (List.mem_cons_of_mem _ hm)
        · exact Or.inr ⟨y, List.mem_cons_of_mem _ hy, hxy⟩

/-- After a first-match update whose result is always done, every record
with that id is done — ids must be distinct for the later duplicates. -/
lemma updFirst_done (f : ProgressStep → ProgressStep) (sid : String)
    (l : List ProgressStep) (hkey : ∀ r, (f r).step = r.step)
    (hd : ∀ r, isDone (f r) = true) (hnd : (l.map (fun r => r.step)).Nodup) :
    ∀ x ∈ updFirst f sid l, x.step = sid → isDone x = true := by
  induction l with
  | nil => intro x hx; simp [updFirst] at hx
  | cons r rs ih =>
    intro x hx hxs
    by_cases h : r.step = sid
    · have hb : (r.step == sid) = true := by simp [h]
      rw [updFirst, if_pos hb] at hx
      rcases List.mem_cons.mp hx with rfl | hmem
      · exact hd r
      · exfalso
        have : x.step ∈ rs.map (fun r => r.step) := List.mem_map_of_mem _ hmem
        rw [hxs, ← h] at this
        exact (List.nodup_cons.mp (by simpa using hnd)).1 this
    · have hb : (r.step == sid) = false := by simp [h]
      rw [updFirst, if_neg (by simp [hb])] at hx
      rcases List.mem_cons.mp hx with rfl | hmem
      · exact absurd hxs h
      · exact ih (List.nodup_cons.mp (by simpa using hnd)).2 x hmem hxs

/-- Completing or skipping a not-yet-done record adds exactly its weight to
the done sum. -/
lemma sumDoneW_updFirst_done (f : ProgressStep → ProgressStep) (sid : String)
    (l : List ProgressStep) (r0 : ProgressStep)
    (hkey : ∀ r, (f r).step = r.step) (hd : ∀ r, isDone (f r) = true)
    (hf : findStep l sid = some r0) (h0 : isDone r0 = false) :
    sumDoneW (updFirst f sid l) = sumDoneW l + get_step_weight sid := by
  induction l with
  | nil => simp [findStep] at hf
  | cons r rs ih =>
    by_cases h : r.step = sid
    · have hb : (r.step == sid) = true := by simp [h]
      have hr0 : r0 = r := by
        unfold findStep at hf
        simp only [List.find?_cons, hb] at hf
        exact (Option.some.inj hf).symm
      rw [updFirst, if_pos hb, sumDoneW_cons, sumDoneW_cons, hd r, hkey r, h]
      rw [hr0] at h0
      rw [h0]
      simp [Nat.add_comm, Nat.add_assoc, Nat.add_left_comm]
    · have hb : (r.step == sid) = false := by simp [h]
      unfold findStep at hf
      simp only [List.find?_cons, hb] at hf
      rw [updFirst, if_neg (by simp [hb]), sumDoneW_cons, sumDoneW_cons, ih hf]
      ring

/-- Starting or failing a not-yet-done record leaves the done sum unchanged. -/
lemma sumDoneW_updFirst_notdone (f : ProgressStep → ProgressStep) (sid : String)
    (l : List ProgressStep) (r0 : ProgressStep)
    (hkey : ∀ r, (f r).step = r.step) (hnotd : ∀ r, isDone (f r) = false)
    (hf : findStep l sid = some r0) (h0 : isDone r0 = false) :
    sumDoneW (updFirst f sid l) = sumDoneW l := by
  induction l with
  | nil => simp [findStep] at hf
  | cons r rs ih =>
    by_cases h : r.step = sid
    · have hb : (r.step == sid) = true := by simp [h]
      have hr0 : r0 = r := by
        unfold findStep at hf
        simp only [List.find?_cons, hb] at hf
        exact (Option.some.inj hf).symm
      rw [updFirst, if_pos hb, sumDoneW_cons, sumDoneW_cons, hnotd r]
      rw [hr0] at h0
      rw [h0]
      simp [hkey r]
    · have hb : (r.step == sid) = false := by simp [h]
      unfold findStep at hf
      simp only [List.find?_cons, hb] at hf
      rw [updFirst, if_neg (by simp [hb]), sumDoneW_cons, sumDoneW_cons, ih hf]

/-! ## Tracker operation case lemmas -/

lemma map_eq_singleton {α β : Type} (f : α → β) (l : List α) (a : β)
    (h : l.map f = [a]) : ∃ x, l = [x] ∧ f x = a := by
  cases l with
  | nil => simp at h
  | cons x xs =>
    cases xs with
    | nil =>
      simp at h
      exact ⟨x, rfl, h⟩
    | cons y ys => simp at h

lemma start_step_noop (t : ProgressTracker) (sid : String) (m : Option String)
    (hf : findStep t.steps sid = none) : t.start_step sid m = (t, []) := by
  unfold ProgressTracker.start_step
  by_cases hnc : t.is_cancelled <;> simp [hnc, hf]

lemma start_step_some (t : ProgressTracker) (sid : String) (m : Option String)
    (r : ProgressStep) (hnc : t.is_cancelled = false)
    (hf : findStep t.steps sid = some r) :
    (t.start_step sid m).1 =
      { t with current_step := some sid,
               steps := updFirst (runningUpd (m.getD r.message)) sid t.steps }
    ∧ (t.start_step sid m).2.map (fun e => e.type) = ["step_start"] := by
  constructor <;> simp [ProgressTracker.start_step, hnc, hf]

lemma complete_step_noop (t : ProgressTracker) (sid : String) (m : Option String)
    (ic : Option Nat) (hf : findStep t.steps sid = none) :
    t.complete_step sid m ic = (t, []) := by
  unfold ProgressTracker.complete_step
  by_cases hnc : t.is_cancelled <;> simp [hnc, hf]

lemma complete_step_some (t : ProgressTracker) (sid : String) (m : Option String)
    (ic : Option Nat) (r : ProgressStep) (hnc : t.is_cancelled = false)
    (hf : findStep t.steps sid = some r) :
    (t.complete_step sid m ic).1 =
      { t with
        steps := updFirst (successUpd (m.getD r.message) (resolveIc ic r)) sid t.steps
        completed_weight := t.completed_weight + get_step_weight sid }
    ∧ (t.complete_step sid m ic).2.map (fun e => e.type) = ["step_complete"] := by
  constructor <;> simp [ProgressTracker.complete_step, hnc, hf]

lemma skip_step_noop (t : ProgressTracker) (sid : String) (m : String)
    (hf : findStep t.steps sid = none) : t.skip_step sid m = (t, []) := by
  unfold ProgressTracker.skip_step
  by_cases hnc : t.is_cancelled <;> simp [hnc, hf]

lemma skip_step_some (t : ProgressTracker) (sid : String) (m : String)
    (r : ProgressStep) (hnc : t.is_cancelled = false)
    (hf : findStep t.steps sid = some r) :
    (t.skip_step sid m).1 =
      { t with
        steps := updFirst (skippedUpd m) sid t.steps
        completed_weight := t.completed_weight + get_step_weight sid }
    ∧ (t.skip_step sid m).2.map (fun e => e.type) = ["step_skipped"] := by
  constructor <;> simp [ProgressTracker.skip_step, hnc, hf]

lemma fail_step_noop (t : ProgressTracker) (sid : String) (err : String)
    (hf : findStep t.steps sid = none) : t.fail_step sid err = (t, []) := by
  simp [ProgressTracker.fail_step, hf]

lemma fail_step_some (t : ProgressTracker) (sid : String) (err : String)
    (r : ProgressStep) (hf : findStep t.steps sid = some r) :
    (t.fail_step sid err).1 =
      { t with steps := updFirst (failedUpd err) sid t.steps }
    ∧ (t.fail_step sid err).2.map (fun e => e.type) = ["step_error"] := by
  constructor <;> simp [ProgressTracker.fail_step, hf]

lemma complete_generation_eq (t : ProgressTracker) (msg : String) :
    t.complete_generation msg =
      (t, [{ type := "generation_complete", step := "complete", progress := 100,
             message := msg }]) := rfl

/-- Events with a step-level type are never terminal. -/
lemma nonterminal_of_type (e : ProgressEvent) (ty : String) (he : e.type = ty)
    (h : TERMINAL_EVENT_TYPES.contains ty = false) : e.isTerminal = false := by
  unfold ProgressEvent.isTerminal
  rw [he, h]

/-! ## Pipeline step advancement

Each pipeline step function touches only its own record: it leaves every
other record (and lookup) unchanged, ends its own record completed or
skipped, keeps the completed weight equal to the done-weight sum, and only
appends non-terminal events. -/

lemma not_step_of_findStep_none (l : List ProgressStep) (sid : String)
    (hf : findStep l sid = none) : ∀ r ∈ l, r.step ≠ sid := by
  intro r hr
  have := List.find?_eq_none.mp hf r hr
  simpa using this

lemma findStep_some_mem (l : List ProgressStep) (sid : String) (r : ProgressStep)
    (hf : findStep l sid = some r) : r ∈ l ∧ r.step = sid := by
  refine ⟨List.mem_of_find?_eq_some hf, ?_⟩
  have := List.find?_some hf
  simpa using this

lemma nonterminal_of_types_eq (l : List ProgressEvent) (ty : String)
    (hm : l.map (fun e => e.type) = [ty])
    (hty : TERMINAL_EVENT_TYPES.contains ty = false) :
    ∀ e ∈ l, e.isTerminal = false := by
  intro e he
  obtain ⟨x, hl, hx⟩ := map_eq_singleton _ _ _ hm
  rw [hl] at he
  rcases List.mem_singleton.mp he with rfl
  exact nonterminal_of_type e ty hx hty

/-- Guarantees a pipeline step function gives about its own step id `sid`:
cancellation flag untouched, other records untouched, its own record done,
weight invariant maintained, only non-terminal events appended, and the two
resolved titles either untouched or set from the corresponding date. -/
structure StepAdv (cfg : GenerationConfig) (env : Env) (sid : String)
    (st st' : PipelineState) : Prop where
  nc : st'.tracker.is_cancelled = false
  ids : st'.tracker.steps.map (fun r => r.step) = st.tracker.steps.map (fun r => r.step)
  tw : st'.tracker.total_weight = st.tracker.total_weight
  memf : ∀ r ∈ st'.tracker.steps, r.step ≠ sid → r ∈ st.tracker.steps
  findf : ∀ sid', sid' ≠ sid →
    findStep st'.tracker.steps sid' = findStep st.tracker.steps sid'
  done : ∀ r ∈ st'.tracker.steps, r.step = sid → isDone r = true
  wv : st'.tracker.completed_weight = sumDoneW st'.tracker.steps
  evs : ∃ new, st'.events = st.events ++ new ∧ ∀ e ∈ new, e.isTerminal = false
  rt : st'.renderedTitle = st.renderedTitle ∨
    st'.renderedTitle = some (render_title cfg.title env.renderDate)
  pt : st'.publishedTitle = st.publishedTitle ∨
    st'.publishedTitle = some (render_title cfg.title env.publishDate)

/-- Well-formedness of a pipeline state threaded through the step sequence. -/
structure StOK (st : PipelineState) : Prop where
  nc : st.tracker.is_cancelled = false
  nd : (st.tracker.steps.map (fun r => r.step)).Nodup
  wv : st.tracker.completed_weight = sumDoneW st.tracker.steps

lemma StepAdv.stok {cfg : GenerationConfig} {env : Env} {sid : String}
    {st st' : PipelineState} (adv : StepAdv cfg env sid st st') (hok : StOK st) :
    StOK st' :=
  ⟨adv.nc, adv.ids.symm ▸ hok.nd, adv.wv⟩

lemma StepAdv.pend_preserved {cfg : GenerationConfig} {env : Env} {sid : String}
    {st st' : PipelineState} (adv : StepAdv cfg env sid st st') (sid' : String)
    (hne : sid' ≠ sid)
    (hp : ∀ r ∈ st.tracker.steps, r.step = sid' → isDone r = false) :
    ∀ r ∈ st'.tracker.steps, r.step = sid' → isDone r = false := by
  intro r hr hrs
  exact hp r (adv.memf r hr (by rw [hrs]; exact hne)) hrs

lemma StepAdv.done_preserved {cfg : GenerationConfig} {env : Env} {sid : String}
    {st st' : PipelineState} (adv : StepAdv cfg env sid st st') (sid' : String)
    (hne : sid' ≠ sid)
    (hd : ∀ r ∈ st.tracker.steps, r.step = sid' → isDone r = true) :
    ∀ r ∈ st'.tracker.steps, r.step = sid' → isDone r = true := by
  intro r hr hrs
  exact hd r (adv.memf r hr (by rw [hrs]; exact hne)) hrs

/-- All events of a pipeline state are non-terminal. -/
def EventsOK (st : PipelineState) : Prop :=
  ∀ e ∈ st.events, e.isTerminal = false

lemma StepAdv.eventsOK {cfg : GenerationConfig} {env : Env} {sid : String}
    {st st' : PipelineState} (adv : StepAdv cfg env sid st st') (h : EventsOK st) :
    EventsOK st' := by
  intro e he
  obtain ⟨new, hev, hnew⟩ := adv.evs
  rw [hev] at he
  rcases List.mem_append.mp he with hm | hm
  · exact h e hm
  · exact hnew e hm

/-- Advancement by a direct `skip_step` call (disabled-source branches). -/
lemma adv_run_skip (cfg : GenerationConfig) (env : Env) (sid msg : String)
    (st : PipelineState) (hok : StOK st)
    (hpend : ∀ r ∈ st.tracker.steps, r.step = sid → isDone r = false) :
    StepAdv cfg env sid st (st.run (fun t => t.skip_step sid msg)) := by
  cases hf : findStep st.tracker.steps sid with
  | none =>
    have heq : st.tracker.skip_step sid msg = (st.tracker, []) :=
      skip_step_noop _ _ _ hf
    refine ⟨?_, ?_, ?_, ?_, ?_, ?_, ?_, ?_, Or.inl rfl, Or.inl rfl⟩
    · show (st.tracker.skip_step sid msg).1.is_cancelled = false
      rw [heq]; exact hok.nc
    · show ((st.tracker.skip_step sid msg).1.steps.map _) = _
      rw [heq]
    · show (st.tracker.skip_step sid msg).1.total_weight = _
      rw [heq]
    · show ∀ r ∈ (st.tracker.skip_step sid msg).1.steps, _
      rw [heq]; exact fun r hr _ => hr
    · show ∀ sid', _ → findStep (st.tracker.skip_step sid msg).1.steps sid' = _
      rw [heq]; exact fun _ _ => rfl
    · show ∀ r ∈ (st.tracker.skip_step sid msg).1.steps, _
      rw [heq]
      exact fun r hr hrs => absurd hrs (not_step_of_findStep_none _ _ hf r hr)
    · show (st.tracker.skip_step sid msg).1.completed_weight
        = sumDoneW (st.tracker.skip_step sid msg).1.steps
      rw [heq]; exact hok.wv
    · refine ⟨(st.tracker.skip_step sid msg).2, rfl, ?_⟩
      rw [heq]; intro e he; simp at he
  | some r =>
    obtain ⟨hmem, hstep⟩ := findStep_some_mem _ _ _ hf
    obtain ⟨heq, hty⟩ := skip_step_some st.tracker sid msg r hok.nc hf
    refine ⟨?_, ?_, ?_, ?_, ?_, ?_, ?_, ?_, Or.inl rfl, Or.inl rfl⟩
    · show (st.tracker.skip_step sid msg).1.is_cancelled = false
      rw [heq]; exact hok.nc
    · show ((st.tracker.skip_step sid msg).1.steps.map _) = _
      rw [heq]
      exact updFirst_map_step (skippedUpd msg) sid st.tracker.steps (fun _ => rfl)
    · show (st.tracker.skip_step sid msg).1.total_weight = _
      rw [heq]
    · show ∀ x ∈ (st.tracker.skip_step sid msg).1.steps, _
      rw [heq]
      exact updFirst_mem (skippedUpd msg) sid st.tracker.steps (fun _ => rfl)
    · show ∀ sid', _ → findStep (st.tracker.skip_step sid msg).1.steps sid' = _
      rw [heq]
      exact fun sid' hne =>
        updFirst_findStep_other (skippedUpd msg) sid sid' st.tracker.steps
          (fun _ => rfl) hne
    · show ∀ x ∈ (st.tracker.skip_step sid msg).1.steps, _
      rw [heq]
      exact updFirst_done (skippedUpd msg) sid st.tracker.steps
        (fun _ => rfl) (fun _ => rfl) hok.nd
    · show (st.tracker.skip_step sid msg).1.completed_weight
        = sumDoneW (st.tracker.skip_step sid msg).1.steps
      rw [heq]
      show st.tracker.completed_weight + get_step_weight sid
        = sumDoneW (updFirst (skippedUpd msg) sid st.tracker.steps)
      rw [sumDoneW_updFirst_done (skippedUpd msg) sid st.tracker.steps r
        (fun _ => rfl) (fun _ => rfl) hf (hpend r hmem hstep), hok.wv]
    · refine ⟨(st.tracker.skip_step sid msg).2, rfl, ?_⟩
      exact nonterminal_of_types_eq _ _ hty (by decide)

/-- Guarantees of a non-finalizing stage of a pipeline step (the `start_step`
call, or a pure data-field update): like `StepAdv`, but the step's own record
is still not done. -/
structure StepPre (cfg : GenerationConfig) (env : Env) (sid : String)
    (st st' : PipelineState) : Prop where
  nc : st'.tracker.is_cancelled = false
  ids : st'.tracker.steps.map (fun r => r.step) = st.tracker.steps.map (fun r => r.step)
  tw : st'.tracker.total_weight = st.tracker.total_weight
  memf : ∀ r ∈ st'.tracker.steps, r.step ≠ sid → r ∈ st.tracker.steps
  findf : ∀ sid', sid' ≠ sid →
    findStep st'.tracker.steps sid' = findStep st.tracker.steps sid'
  pend : ∀ r ∈ st'.tracker.steps, r.step = sid → isDone r = false
  wv : st'.tracker.completed_weight = sumDoneW st'.tracker.steps
  evs : ∃ new, st'.events = st.events ++ new ∧ ∀ e ∈ new, e.isTerminal = false
  rt : st'.renderedTitle = st.renderedTitle ∨
    st'.renderedTitle = some (render_title cfg.title env.renderDate)
  pt : st'.publishedTitle = st.publishedTitle ∨
    st'.publishedTitle = some (render_title cfg.title env.publishDate)

lemma StepPre.stokPre {cfg : GenerationConfig} {env : Env} {sid : String}
    {st st' : PipelineState} (pre : StepPre cfg env sid st st') (hok : StOK st) :
    StOK st' :=
  ⟨pre.nc, pre.ids.symm ▸ hok.nd, pre.wv⟩

/-- A non-finalizing stage followed by a finalizing stage finalizes the step. -/
lemma StepPre.comp_adv {cfg : GenerationConfig} {env : Env} {sid : String}
    {st st1 st2 : PipelineState} (pre : StepPre cfg env sid st st1)
    (adv : StepAdv cfg env sid st1 st2) : StepAdv cfg env sid st st2 := by
  refine ⟨adv.nc, adv.ids.trans pre.ids, adv.tw.trans pre.tw, ?_, ?_, adv.done, adv.wv,
    ?_, ?_, ?_⟩
  · exact fun r hr hne => pre.memf r (adv.memf r hr hne) hne
  · exact fun sid' hne => (adv.findf sid' hne).trans (pre.findf sid' hne)
  · obtain ⟨a, ha, hna⟩ := pre.evs
    obtain ⟨b, hb, hnb⟩ := adv.evs
    refine ⟨a ++ b, ?_, ?_⟩
    · rw [hb, ha, List.append_assoc]
    · intro e he
      rcases List.mem_append.mp he with hm | hm
      · exact hna e hm
      · exact hnb e hm
  · rcases adv.rt with h | h
    · rw [h]; exact pre.rt
    · exact Or.inr h
  · rcases adv.pt with h | h
    · rw [h]; exact pre.pt
    · exact Or.inr h

/-- Two non-finalizing stages compose to a non-finalizing stage. -/
lemma StepPre.comp_pre {cfg : GenerationConfig} {env : Env} {sid : String}
    {st st1 st2 : PipelineState} (p1 : StepPre cfg env sid st st1)
    (p2 : StepPre cfg env sid st1 st2) : StepPre cfg env sid st st2 := by
  refine ⟨p2.nc, p2.ids.trans p1.ids, p2.tw.trans p1.tw, ?_, ?_, p2.pend, p2.wv,
    ?_, ?_, ?_⟩
  · exact fun r hr hne => p1.memf r (p2.memf r hr hne) hne
  · exact fun sid' hne => (p2.findf sid' hne).trans (p1.findf sid' hne)
  · obtain ⟨a, ha, hna⟩ := p1.evs
    obtain ⟨b, hb, hnb⟩ := p2.evs
    refine ⟨a ++ b, ?_, ?_⟩
    · rw [hb, ha, List.append_assoc]
    · intro e he
      rcases List.mem_append.mp he with hm | hm
      · exact hna e hm
      · exact hnb e hm
  · rcases p2.rt with h | h
    · rw [h]; exact p1.rt
    · exact Or.inr h
  · rcases p2.pt with h | h
    · rw [h]; exact p1.pt
    · exact Or.inr h

/-- The `start_step` stage of a pipeline step. -/
lemma pre_run_start (cfg : GenerationConfig) (env : Env) (sid : String)
    (m : Option String) (st : PipelineState) (hok : StOK st)
    (hpend : ∀ r ∈ st.tracker.steps, r.step = sid → isDone r = false) :
    StepPre cfg env sid st (st.run (fun t => t.start_step sid m)) := by
  cases hf : findStep st.tracker.steps sid with
  | none =>
    have heq : st.tracker.start_step sid m = (st.tracker, []) := start_step_noop _ _ _ hf
    refine ⟨?_, ?_, ?_, ?_, ?_, ?_, ?_, ?_, Or.inl rfl, Or.inl rfl⟩
    · show (st.tracker.start_step sid m).1.is_cancelled = false
      rw [heq]; exact hok.nc
    · show ((st.tracker.start_step sid m).1.steps.map _) = _
      rw [heq]
    · show (st.tracker.start_step sid m).1.total_weight = _
      rw [heq]
    · show ∀ r ∈ (st.tracker.start_step sid m).1.steps, _
      rw [heq]; exact fun r hr _ => hr
    · show ∀ sid', _ → findStep (st.tracker.start_step sid m).1.steps sid' = _
      rw [heq]; exact fun _ _ => rfl
    · show ∀ r ∈ (st.tracker.start_step sid m).1.steps, _
      rw [heq]; exact hpend
    · show (st.tracker.start_step sid m).1.completed_weight
        = sumDoneW (st.tracker.start_step sid m).1.steps
      rw [heq]; exact hok.wv
    · refine ⟨(st.tracker.start_step sid m).2, rfl, ?_⟩
      rw [heq]; intro e he; simp at he
  | some r =>
    obtain ⟨hmem, hstep⟩ := findStep_some_mem _ _ _ hf
    obtain ⟨heq, hty⟩ := start_step_some st.tracker sid m r hok.nc hf
    refine ⟨?_, ?_, ?_, ?_, ?_, ?_, ?_, ?_, Or.inl rfl, Or.inl rfl⟩
    · show (st.tracker.start_step sid m).1.is_cancelled = false
      rw [heq]; exact hok.nc
    · show ((st.tracker.start_step sid m).1.steps.map _) = _
      rw [heq]
      exact updFirst_map_step (runningUpd (m.getD r.message)) sid st.tracker.steps
        (fun _ => rfl)
    · show (st.tracker.start_step sid m).1.total_weight = _
      rw [heq]
    · show ∀ x ∈ (st.tracker.start_step sid m).1.steps, _
      rw [heq]
      exact updFirst_mem (runningUpd (m.getD r.message)) sid st.tracker.steps
        (fun _ => rfl)
    · show ∀ sid', _ → findStep (st.tracker.start_step sid m).1.steps sid' = _
      rw [heq]
      exact fun sid' hne =>
        updFirst_findStep_other (runningUpd (m.getD r.message)) sid sid'
          st.tracker.steps (fun _ => rfl) hne
    · show ∀ x ∈ (st.tracker.start_step sid m).1.steps, _
      rw [heq]
      intro x hx hxs
      rcases updFirst_mem_cases (runningUpd (m.getD r.message)) sid st.tracker.steps
          x hx with h | ⟨y, _, hxy⟩
      · exact hpend x h hxs
      · rw [hxy]; rfl
    · show (st.tracker.start_step sid m).1.completed_weight
        = sumDoneW (st.tracker.start_step sid m).1.steps
      rw [heq]
      show st.tracker.completed_weight
        = sumDoneW (updFirst (runningUpd (m.getD r.message)) sid st.tracker.steps)
      rw [sumDoneW_updFirst_notdone (runningUpd (m.getD r.message)) sid
        st.tracker.steps r (fun _ => rfl) (fun _ => rfl) hf (hpend r hmem hstep)]
      exact hok.wv
    · refine ⟨(st.tracker.start_step sid m).2, rfl, ?_⟩
      exact nonterminal_of_types_eq _ _ hty (by decide)

/-- Advancement by a `complete_step` call. -/
lemma adv_run_complete (cfg : GenerationConfig) (env : Env) (sid : String)
    (m2 : Option String) (ic : Option Nat) (st : PipelineState) (hok : StOK st)
    (hpend : ∀ r ∈ st.tracker.steps, r.step = sid → isDone r = false) :
    StepAdv cfg env sid st (st.run (fun t => t.complete_step sid m2 ic)) := by
  cases hf : findStep st.tracker.steps sid with
  | none =>
    have heq : st.tracker.complete_step sid m2 ic = (st.tracker, []) :=
      complete_step_noop _ _ _ _ hf
    refine ⟨?_, ?_, ?_, ?_, ?_, ?_, ?_, ?_, Or.inl rfl, Or.inl rfl⟩
    · show (st.tracker.complete_step sid m2 ic).1.is_cancelled = false
      rw [heq]; exact hok.nc
    · show ((st.tracker.complete_step sid m2 ic).1.steps.map _) = _
      rw [heq]
    · show (st.tracker.complete_step sid m2 ic).1.total_weight = _
      rw [heq]
    · show ∀ r ∈ (st.tracker.complete_step sid m2 ic).1.steps, _
      rw [heq]; exact fun r hr _ => hr
    · show ∀ sid', _ → findStep (st.tracker.complete_step sid m2 ic).1.steps sid' = _
      rw [heq]; exact fun _ _ => rfl
    · show ∀ r ∈ (st.tracker.complete_step sid m2 ic).1.steps, _
      rw [heq]
      exact fun r hr hrs => absurd hrs (not_step_of_findStep_none _ _ hf r hr)
    · show (st.tracker.complete_step sid m2 ic).1.completed_weight
        = sumDoneW (st.tracker.complete_step sid m2 ic).1.steps
      rw [heq]; exact hok.wv
    · refine ⟨(st.tracker.complete_step sid m2 ic).2, rfl, ?_⟩
      rw [heq]; intro e he; simp at he
  | some r =>
    obtain ⟨hmem, hstep⟩ := findStep_some_mem _ _ _ hf
    obtain ⟨heq, hty⟩ := complete_step_some st.tracker sid m2 ic r hok.nc hf
    refine ⟨?_, ?_, ?_, ?_, ?_, ?_, ?_, ?_, Or.inl rfl, Or.inl rfl⟩
    · show (st.tracker.complete_step sid m2 ic).1.is_cancelled = false
      rw [heq]; exact hok.nc
    · show ((st.tracker.complete_step sid m2 ic).1.steps.map _) = _
      rw [heq]
      exact updFirst_map_step (successUpd (m2.getD r.message) (resolveIc ic r)) sid
        st.tracker.steps (fun _ => rfl)
    · show (st.tracker.complete_step sid m2 ic).1.total_weight = _
      rw [heq]
    · show ∀ x ∈ (st.tracker.complete_step sid m2 ic).1.steps, _
      rw [heq]
      exact updFirst_mem (successUpd (m2.getD r.message) (resolveIc ic r)) sid
        st.tracker.steps (fun _ => rfl)
    · show ∀ sid', _ → findStep (st.tracker.complete_step sid m2 ic).1.steps sid' = _
      rw [heq]
      exact fun sid' hne =>
        updFirst_findStep_other (successUpd (m2.getD r.message) (resolveIc ic r))
          sid sid' st.tracker.steps (fun _ => rfl) hne
    · show ∀ x ∈ (st.tracker.complete_step sid m2 ic).1.steps, _
      rw [heq]
      exact updFirst_done (successUpd (m2.getD r.message) (resolveIc ic r)) sid
        st.tracker.steps (fun _ => rfl) (fun _ => rfl) hok.nd
    · show (st.tracker.complete_step sid m2 ic).1.completed_weight
        = sumDoneW (st.tracker.complete_step sid m2 ic).1.steps
      rw [heq]
      show st.tracker.completed_weight + get_step_weight sid
        = sumDoneW (updFirst (successUpd (m2.getD r.message) (resolveIc ic r)) sid
            st.tracker.steps)
      rw [sumDoneW_updFirst_done (successUpd (m2.getD r.message) (resolveIc ic r)) sid
        st.tracker.steps r (fun _ => rfl) (fun _ => rfl) hf
        (hpend r hmem hstep), hok.wv]
    · refine ⟨(st.tracker.complete_step sid m2 ic).2, rfl, ?_⟩
      exact nonterminal_of_types_eq _ _ hty (by decide)

/-- A pure data-field update (item counts, ids, resolved titles) is a
non-finalizing stage. -/
lemma pre_pure (cfg : GenerationConfig) (env : Env) (sid : String)
    (st st' : PipelineState) (htr : st'.tracker = st.tracker)
    (hev : st'.events = st.events)
    (hrt : st'.renderedTitle = st.renderedTitle ∨
      st'.renderedTitle = some (render_title cfg.title env.renderDate))
    (hpt : st'.publishedTitle = st.publishedTitle ∨
      st'.publishedTitle = some (render_title cfg.title env.publishDate))
    (hok : StOK st)
    (hpend : ∀ r ∈ st.tracker.steps, r.step = sid → isDone r = false) :
    StepPre cfg env sid st st' := by
  refine ⟨?_, ?_, ?_, ?_, ?_, ?_, ?_, ⟨[], by rw [hev, List.append_nil], by simp⟩,
    hrt, hpt⟩ <;> rw [htr]
  · exact hok.nc
  · exact fun r hr _ => hr
  · exact fun _ _ => rfl
  · exact hpend
  · exact hok.wv

/-- Advancement of the uniform optional-source step shape, for any
count-setter that only touches data fields. -/
lemma fetch_optional_source_adv (cfg : GenerationConfig) (env : Env)
    (enabled : Bool) (outcome : FetchOutcome) (sid startMsg : String)
    (foundMsg : Nat → String) (setCount : Nat → PipelineState → PipelineState)
    (st : PipelineState)
    (hset_tr : ∀ n s, (setCount n s).tracker = s.tracker)
    (hset_ev : ∀ n s, (setCount n s).events = s.events)
    (hset_rt : ∀ n s, (setCount n s).renderedTitle = s.renderedTitle)
    (hset_pt : ∀ n s, (setCount n s).publishedTitle = s.publishedTitle)
    (hok : StOK st)
    (hpend : ∀ r ∈ st.tracker.steps, r.step = sid → isDone r = false) :
    StepAdv cfg env sid st
      (fetch_optional_source enabled outcome sid startMsg foundMsg setCount st) := by
  cases he : enabled with
  | false =>
    show StepAdv cfg env sid st
      (if !false then _ else st.run (fun t => t.skip_step sid "Disabled"))
    exact adv_run_skip cfg env sid "Disabled" st hok hpend
  | true =>
    have pre1 := pre_run_start cfg env sid (some startMsg) st hok hpend
    have hok1 := pre1.stokPre hok
    cases outcome with
    | notConfigured =>
      exact pre1.comp_adv
        (adv_run_skip cfg env sid "Not configured" _ hok1 pre1.pend)
    | items n =>
      have pre2 := pre_pure cfg env sid _
        (setCount n (st.run (fun t => t.start_step sid (some startMsg))))
        (hset_tr n _) (hset_ev n _) (Or.inl (hset_rt n _)) (Or.inl (hset_pt n _))
        hok1 pre1.pend
      exact (pre1.comp_pre pre2).comp_adv
        (adv_run_complete cfg env sid (some (foundMsg n)) (some n) _
          ((pre1.comp_pre pre2).stokPre hok) (pre1.comp_pre pre2).pend)
    | error msg =>
      exact pre1.comp_adv
        (adv_run_complete cfg env sid (some "Fetch failed, continuing") (some 0) _
          hok1 pre1.pend)

lemma fetch_romm_adv (cfg : GenerationConfig) (env : Env) (st : PipelineState)
    (hok : StOK st)
    (hpend : ∀ r ∈ st.tracker.steps, r.step = "fetch_romm" → isDone r = false) :
    StepAdv cfg env "fetch_romm" st (fetch_romm cfg env st) :=
  fetch_optional_source_adv cfg env _ _ _ _ _ _ st
    (fun _ _ => rfl) (fun _ _ => rfl) (fun _ _ => rfl) (fun _ _ => rfl) hok hpend

lemma fetch_komga_adv (cfg : GenerationConfig) (env : Env) (st : PipelineState)
    (hok : StOK st)
    (hpend : ∀ r ∈ st.tracker.steps, r.step = "fetch_komga" → isDone r = false) :
    StepAdv cfg env "fetch_komga" st (fetch_komga cfg env st) :=
  fetch_optional_source_adv cfg env _ _ _ _ _ _ st
    (fun _ _ => rfl) (fun _ _ => rfl) (fun _ _ => rfl) (fun _ _ => rfl) hok hpend

lemma fetch_audiobookshelf_adv (cfg : GenerationConfig) (env : Env)
    (st : PipelineState) (hok : StOK st)
    (hpend : ∀ r ∈ st.tracker.steps, r.step = "fetch_audiobookshelf" → isDone r = false) :
    StepAdv cfg env "fetch_audiobookshelf" st (fetch_audiobookshelf cfg env st) :=
  fetch_optional_source_adv cfg env _ _ _ _ _ _ st
    (fun _ _ => rfl) (fun _ _ => rfl) (fun _ _ => rfl) (fun _ _ => rfl) hok hpend

lemma fetch_tunarr_adv (cfg : GenerationConfig) (env : Env) (st : PipelineState)
    (hok : StOK st)
    (hpend : ∀ r ∈ st.tracker.steps, r.step = "fetch_tunarr" → isDone r = false) :
    StepAdv cfg env "fetch_tunarr" st (fetch_tunarr cfg env st) :=
  fetch_optional_source_adv cfg env _ _ _ _ _ _ st
    (fun _ _ => rfl) (fun _ _ => rfl) (fun _ _ => rfl) (fun _ _ => rfl) hok hpend

lemma enrich_tmdb_adv (cfg : GenerationConfig) (env : Env) (st : PipelineState)
    (hok : StOK st)
    (hpend : ∀ r ∈ st.tracker.steps, r.step = "enrich_tmdb" → isDone r = false) :
    StepAdv cfg env "enrich_tmdb" st (enrich_tmdb cfg env st) := by
  unfold enrich_tmdb
  split
  · exact adv_run_skip cfg env "enrich_tmdb" "No media to enrich" st hok hpend
  · have pre1 := pre_run_start cfg env "enrich_tmdb"
      (some "Enriching with TMDB metadata...") st hok hpend
    have hok1 := pre1.stokPre hok
    cases env.tmdb with
    | notConfigured =>
      exact pre1.comp_adv
        (adv_run_skip cfg env "enrich_tmdb" "TMDB not configured" _ hok1 pre1.pend)
    | items n =>
      exact pre1.comp_adv (adv_run_complete cfg env "enrich_tmdb"
        (some ("Enriched " ++ toString n ++ " items")) (some n) _ hok1 pre1.pend)
    | error msg =>
      exact pre1.comp_adv (adv_run_complete cfg env "enrich_tmdb"
        (some "Enrichment failed, continuing") (some 0) _ hok1 pre1.pend)

lemma fetch_statistics_adv (cfg : GenerationConfig) (env : Env) (st : PipelineState)
    (hok : StOK st)
    (hpend : ∀ r ∈ st.tracker.steps, r.step = "fetch_statistics" → isDone r = false) :
    StepAdv cfg env "fetch_statistics" st (fetch_statistics cfg env st) := by
  unfold fetch_statistics
  split
  · exact adv_run_skip cfg env "fetch_statistics" "Disabled" st hok hpend
  · have pre1 := pre_run_start cfg env "fetch_statistics"
      (some "Fetching statistics...") st hok hpend
    have hok1 := pre1.stokPre hok
    cases env.statistics with
    | notConfigured =>
      exact pre1.comp_adv
        (adv_run_skip cfg env "fetch_statistics" "Tautulli not configured" _
          hok1 pre1.pend)
    | items n =>
      have pre2 := pre_pure cfg env "fetch_statistics"
        (st.run (fun t => t.start_step "fetch_statistics"
          (some "Fetching statistics...")))
        { (st.run (fun t => t.start_step "fetch_statistics"
            (some "Fetching statistics..."))) with statsFetched := true }
        rfl rfl (Or.inl rfl) (Or.inl rfl) hok1 pre1.pend
      exact (pre1.comp_pre pre2).comp_adv
        (adv_run_complete cfg env "fetch_statistics"
          (some ("Total plays: " ++ toString n)) (some 1) _
          ((pre1.comp_pre pre2).stokPre hok) (pre1.comp_pre pre2).pend)
    | error msg =>
      exact pre1.comp_adv (adv_run_complete cfg env "fetch_statistics"
        (some "Fetch failed, continuing") (some 0) _ hok1 pre1.pend)

lemma fetch_tautulli_ok (cfg : GenerationConfig) (env : Env) (st st' : PipelineState)
    (hok : StOK st)
    (hpend : ∀ r ∈ st.tracker.steps, r.step = "fetch_tautulli" → isDone r = false)
    (h : fetch_tautulli cfg env st = .ok st') :
    StepAdv cfg env "fetch_tautulli" st st' := by
  unfold fetch_tautulli at h
  by_cases he : cfg.tautulli.enabled
  · simp only [he, Bool.not_true, Bool.false_eq_true, if_false] at h
    have pre1 := pre_run_start cfg env "fetch_tautulli"
      (some "Fetching media from Tautulli...") st hok hpend
    have hok1 := pre1.stokPre hok
    cases ho : env.tautulli with
    | notConfigured =>
      rw [ho] at h
      simp only [Except.ok.injEq] at h
      rw [← h]
      exact pre1.comp_adv
        (adv_run_skip cfg env "fetch_tautulli" "Not configured" _ hok1 pre1.pend)
    | items m s =>
      rw [ho] at h
      simp only [Except.ok.injEq] at h
      rw [← h]
      have pre2 := pre_pure cfg env "fetch_tautulli"
        (st.run (fun t => t.start_step "fetch_tautulli"
          (some "Fetching media from Tautulli...")))
        { (st.run (fun t => t.start_step "fetch_tautulli"
            (some "Fetching media from Tautulli..."))) with movies := m, series := s }
        rfl rfl (Or.inl rfl) (Or.inl rfl) hok1 pre1.pend
      exact (pre1.comp_pre pre2).comp_adv
        (adv_run_complete cfg env "fetch_tautulli"
          (some ("Found " ++ toString m ++ " movies, " ++ toString s ++ " episodes"))
          (some (m + s)) _ ((pre1.comp_pre pre2).stokPre hok) (pre1.comp_pre pre2).pend)
    | error msg =>
      rw [ho] at h
      simp at h
  · simp only [he, Bool.not_false, if_true] at h
    simp only [Except.ok.injEq] at h
    rw [← h]
    exact adv_run_skip cfg env "fetch_tautulli" "Disabled" st hok hpend

lemma render_template_ok (cfg : GenerationConfig) (env : Env)
    (st st' : PipelineState) (html : String) (hok : StOK st)
    (hpend : ∀ r ∈ st.tracker.steps, r.step = "render_template" → isDone r = false)
    (h : render_template cfg env st = .ok (st', html)) :
    StepAdv cfg env "render_template" st st' := by
  unfold render_template at h
  have pre1 := pre_run_start cfg env "render_template"
    (some "Rendering newsletter...") st hok hpend
  have hok1 := pre1.stokPre hok
  cases ho : env.render with
  | templateMissing => rw [ho] at h; simp at h
  | error msg => rw [ho] at h; simp at h
  | html content =>
    rw [ho] at h
    simp only [Except.ok.injEq, Prod.mk.injEq] at h
    obtain ⟨h1, -⟩ := h
    rw [← h1]
    have pre2 := pre_pure cfg env "render_template"
      (st.run (fun t => t.start_step "render_template" (some "Rendering newsletter...")))
      { (st.run (fun t => t.start_step "render_template"
          (some "Rendering newsletter..."))) with
        renderedTitle := some (render_title cfg.title env.renderDate) }
      rfl rfl (Or.inr rfl) (Or.inl rfl) hok1 pre1.pend
    exact (pre1.comp_pre pre2).comp_adv
      (adv_run_complete cfg env "render_template"
        (some "Template rendered successfully") (some 1) _
        ((pre1.comp_pre pre2).stokPre hok) (pre1.comp_pre pre2).pend)

lemma publish_ghost_ok (cfg : GenerationConfig) (env : Env)
    (st st' : PipelineState) (url : Option String) (hok : StOK st)
    (hpend : ∀ r ∈ st.tracker.steps, r.step = "publish_ghost" → isDone r = false)
    (h : publish_ghost cfg env st = .ok (st', url)) :
    StepAdv cfg env "publish_ghost" st st' := by
  unfold publish_ghost at h
  have pre1 := pre_run_start cfg env "publish_ghost"
    (some "Publishing to Ghost...") st hok hpend
  have hok1 := pre1.stokPre hok
  cases ho : env.ghost with
  | notConfigured =>
    rw [ho] at h
    simp only [Except.ok.injEq, Prod.mk.injEq] at h
    obtain ⟨h1, -⟩ := h
    rw [← h1]
    exact pre1.comp_adv
      (adv_run_skip cfg env "publish_ghost" "Ghost not configured" _ hok1 pre1.pend)
  | post pid u =>
    rw [ho] at h
    simp only [Except.ok.injEq, Prod.mk.injEq] at h
    obtain ⟨h1, -⟩ := h
    rw [← h1]
    have pre2 := pre_pure cfg env "publish_ghost"
      (st.run (fun t => t.start_step "publish_ghost" (some "Publishing to Ghost...")))
      { (st.run (fun t => t.start_step "publish_ghost"
          (some "Publishing to Ghost..."))) with
        publishedTitle := some (render_title cfg.title env.publishDate),
        ghost_post_id := some pid }
      rfl rfl (Or.inl rfl) (Or.inr rfl) hok1 pre1.pend
    exact (pre1.comp_pre pre2).comp_adv
      (adv_run_complete cfg env "publish_ghost"
        (some ("Published as " ++ publishStatusStr cfg.publication_mode)) (some 1) _
        ((pre1.comp_pre pre2).stokPre hok) (pre1.comp_pre pre2).pend)
  | noPost =>
    rw [ho] at h
    simp only [Except.ok.injEq, Prod.mk.injEq] at h
    obtain ⟨h1, -⟩ := h
    rw [← h1]
    have pre2 := pre_pure cfg env "publish_ghost"
      (st.run (fun t => t.start_step "publish_ghost" (some "Publishing to Ghost...")))
      { (st.run (fun t => t.start_step "publish_ghost"
          (some "Publishing to Ghost..."))) with
        publishedTitle := some (render_title cfg.title env.publishDate) }
      rfl rfl (Or.inl rfl) (Or.inr rfl) hok1 pre1.pend
    exact (pre1.comp_pre pre2).comp_adv
      (adv_run_complete cfg env "publish_ghost" (some "Published") (some 1) _
        ((pre1.comp_pre pre2).stokPre hok) (pre1.comp_pre pre2).pend)
  | error msg => rw [ho] at h; simp at h

/-- What a fatal step error guarantees at the raise point: the failing step
is the current step, its record exists (and was just failed), the error text
is the wrapped `GenerationError` message, the events appended since the step
began are non-terminal except a final `step_error`, and every other record is
untouched. -/
structure FatalOut (cfg : GenerationConfig) (env : Env) (st : PipelineState)
    (f : FatalError) : Prop where
  cur : f.st.tracker.current_step = some f.step
  present : (findStep f.st.tracker.steps f.step).isSome = true
  errT : ∃ m, f.errText = genErrMsg f.step m
  evs : ∃ pre e2, f.st.events = st.events ++ pre ++ [e2]
    ∧ (∀ x ∈ pre, x.isTerminal = false) ∧ e2.type = "step_error"
  findf : ∀ sid', sid' ≠ f.step →
    findStep f.st.tracker.steps sid' = findStep st.tracker.steps sid'
  rt : f.st.renderedTitle = st.renderedTitle ∨
    f.st.renderedTitle = some (render_title cfg.title env.renderDate)
  pt : f.st.publishedTitle = st.publishedTitle ∨
    f.st.publishedTitle = some (render_title cfg.title env.publishDate)

/-- Common shape of the three fatal branches: some non-finalizing stage, then
`fail_step` on the current step, then the raise. -/
lemma fatalOut_mk (cfg : GenerationConfig) (env : Env) (sid errmsg m0 : String)
    (st st2 : PipelineState) (pre : StepPre cfg env sid st st2)
    (r2 : ProgressStep) (hf2 : findStep st2.tracker.steps sid = some r2)
    (hcur : st2.tracker.current_step = some sid) :
    FatalOut cfg env st
      { step := sid, errText := genErrMsg sid m0,
        st := st2.run (fun t => t.fail_step sid errmsg) } := by
  obtain ⟨heq, hty⟩ := fail_step_some st2.tracker sid errmsg r2 hf2
  refine ⟨?_, ?_, ⟨m0, rfl⟩, ?_, ?_, ?_, ?_⟩
  · show (st2.tracker.fail_step sid errmsg).1.current_step = some sid
    rw [heq]; exact hcur
  · show (findStep (st2.tracker.fail_step sid errmsg).1.steps sid).isSome = true
    rw [heq]
    show (findStep (updFirst (failedUpd errmsg) sid st2.tracker.steps) sid).isSome = true
    rw [updFirst_findStep_self (failedUpd errmsg) sid st2.tracker.steps (fun _ => rfl),
      hf2]
    rfl
  · obtain ⟨a, ha, hna⟩ := pre.evs
    obtain ⟨e2, hb, he2⟩ := map_eq_singleton _ _ _ hty
    refine ⟨a, e2, ?_, hna, he2⟩
    show st2.events ++ (st2.tracker.fail_step sid errmsg).2 = st.events ++ a ++ [e2]
    rw [hb, ha]
  · intro sid' hne
    show findStep (st2.tracker.fail_step sid errmsg).1.steps sid' = _
    rw [heq]
    show findStep (updFirst (failedUpd errmsg) sid st2.tracker.steps) sid' = _
    rw [updFirst_findStep_other (failedUpd errmsg) sid sid' st2.tracker.steps
      (fun _ => rfl) hne]
    exact pre.findf sid' hne
  · exact pre.rt
  · exact pre.pt

lemma fetch_tautulli_err (cfg : GenerationConfig) (env : Env) (st : PipelineState)
    (f : FatalError) (hok : StOK st)
    (hpend : ∀ r ∈ st.tracker.steps, r.step = "fetch_tautulli" → isDone r = false)
    (hpres : cfg.tautulli.enabled = true →
      ∃ r, findStep st.tracker.steps "fetch_tautulli" = some r)
    (h : fetch_tautulli cfg env st = .error f) :
    f.step = "fetch_tautulli" ∧ FatalOut cfg env st f := by
  unfold fetch_tautulli at h
  by_cases he : cfg.tautulli.enabled
  · simp only [he, Bool.not_true, Bool.false_eq_true, if_false] at h
    cases ho : env.tautulli with
    | notConfigured => rw [ho] at h; simp at h
    | items m s => rw [ho] at h; simp at h
    | error msg =>
      rw [ho] at h
      simp only [Except.error.injEq] at h
      obtain ⟨r, hf⟩ := hpres he
      obtain ⟨heq1, -⟩ := start_step_some st.tracker "fetch_tautulli"
        (some "Fetching media from Tautulli...") r hok.nc hf
      have pre1 := pre_run_start cfg env "fetch_tautulli"
        (some "Fetching media from Tautulli...") st hok hpend
      have hcur1 : (st.run (fun t => t.start_step "fetch_tautulli"
          (some "Fetching media from Tautulli..."))).tracker.current_step
          = some "fetch_tautulli" := by
        show (st.tracker.start_step "fetch_tautulli"
          (some "Fetching media from Tautulli...")).1.current_step = _
        rw [heq1]
      have hf1 : findStep (st.run (fun t => t.start_step "fetch_tautulli"
          (some "Fetching media from Tautulli..."))).tracker.steps "fetch_tautulli"
          = some (runningUpd ((some "Fetching media from Tautulli...").getD
              r.message) r) := by
        show findStep (st.tracker.start_step "fetch_tautulli"
          (some "Fetching media from Tautulli...")).1.steps "fetch_tautulli" = _
        rw [heq1]
        show findStep (updFirst (runningUpd
          ((some "Fetching media from Tautulli...").getD r.message))
          "fetch_tautulli" st.tracker.steps) "fetch_tautulli" = _
        rw [updFirst_findStep_self (runningUpd
          ((some "Fetching media from Tautulli...").getD r.message))
          "fetch_tautulli" st.tracker.steps (fun _ => rfl), hf]
        rfl
      rw [← h]
      exact ⟨rfl, fatalOut_mk cfg env "fetch_tautulli" msg msg st _ pre1 _ hf1 hcur1⟩
  · simp [he] at h

lemma render_template_err (cfg : GenerationConfig) (env : Env) (st : PipelineState)
    (f : FatalError) (hok : StOK st)
    (hpend : ∀ r ∈ st.tracker.steps, r.step = "render_template" → isDone r = false)
    (hpres : ∃ r, findStep st.tracker.steps "render_template" = some r)
    (h : render_template cfg env st = .error f) :
    f.step = "render_template" ∧ FatalOut cfg env st f := by
  unfold render_template at h
  obtain ⟨r, hf⟩ := hpres
  obtain ⟨heq1, -⟩ := start_step_some st.tracker "render_template"
    (some "Rendering newsletter...") r hok.nc hf
  have pre1 := pre_run_start cfg env "render_template"
    (some "Rendering newsletter...") st hok hpend
  have hcur1 : (st.run (fun t => t.start_step "render_template"
      (some "Rendering newsletter..."))).tracker.current_step
      = some "render_template" := by
    show (st.tracker.start_step "render_template"
      (some "Rendering newsletter...")).1.current_step = _
    rw [heq1]
  have hf1 : findStep (st.run (fun t => t.start_step "render_template"
      (some "Rendering newsletter..."))).tracker.steps "render_template"
      = some (runningUpd ((some "Rendering newsletter...").getD r.message) r) := by
    show findStep (st.tracker.start_step "render_template"
      (some "Rendering newsletter...")).1.steps "render_template" = _
    rw [heq1]
    show findStep (updFirst (runningUpd
      ((some "Rendering newsletter...").getD r.message))
      "render_template" st.tracker.steps) "render_template" = _
    rw [updFirst_findStep_self (runningUpd
      ((some "Rendering newsletter...").getD r.message))
      "render_template" st.tracker.steps (fun _ => rfl), hf]
    rfl
  cases ho : env.render with
  | templateMissing =>
    rw [ho] at h
    simp only [Except.error.injEq] at h
    rw [← h]
    exact ⟨rfl, fatalOut_mk cfg env "render_template"
      (genErrMsg "render_template" "Template not found")
      (genErrMsg "render_template" "Template not found") st _ pre1 _ hf1 hcur1⟩
  | error msg =>
    rw [ho] at h
    simp only [Except.error.injEq] at h
    rw [← h]
    exact ⟨rfl, fatalOut_mk cfg env "render_template" msg msg st _ pre1 _ hf1 hcur1⟩
  | html content => rw [ho] at h; simp at h

lemma publish_ghost_err (cfg : GenerationConfig) (env : Env) (st : PipelineState)
    (f : FatalError) (hok : StOK st)
    (hpend : ∀ r ∈ st.tracker.steps, r.step = "publish_ghost" → isDone r = false)
    (hpres : ∃ r, findStep st.tracker.steps "publish_ghost" = some r)
    (h : publish_ghost cfg env st = .error f) :
    f.step = "publish_ghost" ∧ FatalOut cfg env st f := by
  unfold publish_ghost at h
  obtain ⟨r, hf⟩ := hpres
  obtain ⟨heq1, -⟩ := start_step_some st.tracker "publish_ghost"
    (some "Publishing to Ghost...") r hok.nc hf
  have pre1 := pre_run_start cfg env "publish_ghost"
    (some "Publishing to Ghost...") st hok hpend
  have hcur1 : (st.run (fun t => t.start_step "publish_ghost"
      (some "Publishing to Ghost..."))).tracker.current_step
      = some "publish_ghost" := by
    show (st.tracker.start_step "publish_ghost"
      (some "Publishing to Ghost...")).1.current_step = _
    rw [heq1]
  have hf1 : findStep (st.run (fun t => t.start_step "publish_ghost"
      (some "Publishing to Ghost..."))).tracker.steps "publish_ghost"
      = some (runningUpd ((some "Publishing to Ghost...").getD r.message) r) := by
    show findStep (st.tracker.start_step "publish_ghost"
      (some "Publishing to Ghost...")).1.steps "publish_ghost" = _
    rw [heq1]
    show findStep (updFirst (runningUpd
      ((some "Publishing to Ghost...").getD r.message))
      "publish_ghost" st.tracker.steps) "publish_ghost" = _
    rw [updFirst_findStep_self (runningUpd
      ((some "Publishing to Ghost...").getD r.message))
      "publish_ghost" st.tracker.steps (fun _ => rfl), hf]
    rfl
  cases ho : env.ghost with
  | notConfigured => rw [ho] at h; simp at h
  | post pid u => rw [ho] at h; simp at h
  | noPost => rw [ho] at h; simp at h
  | error msg =>
    rw [ho] at h
    simp only [Except.error.injEq] at h
    rw [← h]
    have pre2 := pre_pure cfg env "publish_ghost"
      (st.run (fun t => t.start_step "publish_ghost" (some "Publishing to Ghost...")))
      { (st.run (fun t => t.start_step "publish_ghost"
          (some "Publishing to Ghost..."))) with
        publishedTitle := some (render_title cfg.title env.publishDate) }
      rfl rfl (Or.inl rfl) (Or.inr rfl) (pre1.stokPre hok) pre1.pend
    exact ⟨rfl, fatalOut_mk cfg env "publish_ghost" msg msg st _
      (pre1.comp_pre pre2) _ hf1 hcur1⟩

/-! ## Initial tracker facts -/

lemma contains_enabled (cfg : GenerationConfig) :
    (get_enabled_steps cfg).contains "fetch_tautulli" = cfg.tautulli.enabled
    ∧ (get_enabled_steps cfg).contains "enrich_tmdb" = cfg.tautulli.enabled
    ∧ (get_enabled_steps cfg).contains "fetch_romm" = cfg.romm.enabled
    ∧ (get_enabled_steps cfg).contains "fetch_komga" = cfg.komga.enabled
    ∧ (get_enabled_steps cfg).contains "fetch_audiobookshelf" = cfg.audiobookshelf.enabled
    ∧ (get_enabled_steps cfg).contains "fetch_tunarr" = cfg.tunarr.enabled
    ∧ (get_enabled_steps cfg).contains "fetch_statistics" = cfg.statistics.enabled
    ∧ (get_enabled_steps cfg).contains "render_template" = true
    ∧ (get_enabled_steps cfg).contains "publish_ghost" = true := by
  unfold get_enabled_steps
  cases cfg.tautulli.enabled <;> cases cfg.romm.enabled <;> cases cfg.komga.enabled <;>
    cases cfg.audiobookshelf.enabled <;> cases cfg.tunarr.enabled <;>
    cases cfg.statistics.enabled <;>
    exact ⟨rfl, rfl, rfl, rfl, rfl, rfl, rfl, rfl, rfl⟩

lemma findStep_filter_map_none (q : GenerationStep → Bool) (x : String)
    (L : List GenerationStep) (hx : ¬ x ∈ L.map (fun s => s.step_id)) :
    findStep ((L.filter q).map toRec) x = none := by
  unfold findStep
  rw [List.find?_eq_none]
  intro r hr
  obtain ⟨s, hs, rfl⟩ := List.mem_map.mp hr
  have hsL : s ∈ L := List.mem_of_mem_filter hs
  have : s.step_id ∈ L.map (fun s => s.step_id) := List.mem_map_of_mem _ hsL
  simp only [toRec]
  intro hb
  exact hx (by rwa [← (by simpa using hb : s.step_id = x)] at hx ⊢)

lemma findStep_filter_map (q : GenerationStep → Bool) (x : String) :
    ∀ (L : List GenerationStep), ((L.map (fun s => s.step_id)).Nodup) →
    findStep ((L.filter q).map toRec) x =
      (match L.find? (fun s => s.step_id == x) with
       | some s => if q s then some (toRec s) else none
       | none => none) := by
  intro L
  induction L with
  | nil => intro _; rfl
  | cons s rest ih =>
    intro hnd
    have hnd' : (rest.map (fun s => s.step_id)).Nodup :=
      (List.nodup_cons.mp (by simpa using hnd)).2
    cases hx : (s.step_id == x) with
    | true =>
      have hxs : s.step_id = x := by simpa using hx
      cases hq : q s with
      | true =>
        rw [List.filter_cons_of_pos hq]
        simp only [List.map_cons, List.find?_cons, hx]
        unfold findStep
        rw [List.find?_cons_of_pos _ (by simpa [toRec] using hx)]
        simp [hq]
      | false =>
        rw [List.filter_cons_of_neg (by simp [hq])]
        simp only [List.find?_cons, hx]
        have hnx : ¬ x ∈ rest.map (fun s => s.step_id) := by
          rw [← hxs]
          exact (List.nodup_cons.mp (by simpa using hnd)).1
        rw [findStep_filter_map_none q x rest hnx, hq]
        simp
    | false =>
      cases hq : q s with
      | true =>
        rw [List.filter_cons_of_pos hq]
        simp only [List.map_cons, List.find?_cons, hx]
        unfold findStep
        rw [List.find?_cons_of_neg _ (by simpa [toRec] using hx)]
        exact ih hnd'
      | false =>
        rw [List.filter_cons_of_neg (by simp [hq])]
        simp only [List.find?_cons, hx]
        exact ih hnd'

lemma GENERATION_STEPS_ids_nodup :
    (GENERATION_STEPS.map (fun s => s.step_id)).Nodup := by decide

lemma GENERATION_STEPS_weights :
    ∀ s ∈ GENERATION_STEPS, get_step_weight s.step_id = s.weight := by decide

lemma initTracker_nodup (es : List String) :
    ((initTracker es).steps.map (fun r => r.step)).Nodup := by
  show (((GENERATION_STEPS.filter (fun s => es.contains s.step_id)).map toRec).map
    (fun r => r.step)).Nodup
  rw [List.map_map]
  have : ((GENERATION_STEPS.filter (fun s => es.contains s.step_id)).map
      ((fun r => r.step) ∘ toRec)) =
      (GENERATION_STEPS.filter (fun s => es.contains s.step_id)).map
        (fun s => s.step_id) := rfl
  rw [this]
  exact GENERATION_STEPS_ids_nodup.sublist
    ((List.filter_sublist GENERATION_STEPS).map _)

lemma initTracker_pend (es : List String) :
    ∀ r ∈ (initTracker es).steps, isDone r = false := by
  intro r hr
  obtain ⟨s, -, rfl⟩ := List.mem_map.mp hr
  rfl

lemma initTracker_wv (es : List String) :
    (initTracker es).completed_weight = sumDoneW (initTracker es).steps := by
  show 0 = sumDoneW (initTracker es).steps
  unfold sumDoneW
  rw [List.filter_eq_nil.mpr (fun r hr => by
    rw [initTracker_pend es r hr]; simp)]
  rfl

lemma initTracker_tw (es : List String) :
    (initTracker es).total_weight = sumAllW (initTracker es).steps := by
  show ((GENERATION_STEPS.filter (fun s => es.contains s.step_id)).map
      (fun s => s.weight)).sum
    = sumAllW ((GENERATION_STEPS.filter (fun s => es.contains s.step_id)).map toRec)
  unfold sumAllW
  rw [List.map_map]
  congr 1
  refine (List.map_congr_left ?_).symm
  intro s hs
  exact GENERATION_STEPS_weights s (List.mem_of_mem_filter hs)

lemma initPipelineState_stok (cfg : GenerationConfig) : StOK (initPipelineState cfg) :=
  ⟨rfl, initTracker_nodup (get_enabled_steps cfg), initTracker_wv (get_enabled_steps cfg)⟩

lemma init_find_tautulli (cfg : GenerationConfig) (he : cfg.tautulli.enabled = true) :
    findStep (initTracker (get_enabled_steps cfg)).steps "fetch_tautulli"
      = some (toRec ⟨"fetch_tautulli", "Fetching media from Tautulli", 15⟩) := by
  have h := findStep_filter_map (fun s => (get_enabled_steps cfg).contains s.step_id)
    "fetch_tautulli" GENERATION_STEPS GENERATION_STEPS_ids_nodup
  show findStep ((GENERATION_STEPS.filter
    (fun s => (get_enabled_steps cfg).contains s.step_id)).map toRec)
    "fetch_tautulli" = _
  rw [h]
  show (if (get_enabled_steps cfg).contains "fetch_tautulli" = true
    then some (toRec ⟨"fetch_tautulli", "Fetching media from Tautulli", 15⟩)
    else none) = _
  rw [(contains_enabled cfg).1, he]
  simp

lemma init_find_romm (cfg : GenerationConfig) (he : cfg.romm.enabled = true) :
    findStep (initTracker (get_enabled_steps cfg)).steps "fetch_romm"
      = some (toRec ⟨"fetch_romm", "Fetching games from ROMM", 10⟩) := by
  have h := findStep_filter_map (fun s => (get_enabled_steps cfg).contains s.step_id)
    "fetch_romm" GENERATION_STEPS GENERATION_STEPS_ids_nodup
  show findStep ((GENERATION_STEPS.filter
    (fun s => (get_enabled_steps cfg).contains s.step_id)).map toRec) "fetch_romm" = _
  rw [h]
  show (if (get_enabled_steps cfg).contains "fetch_romm" = true
    then some (toRec ⟨"fetch_romm", "Fetching games from ROMM", 10⟩)
    else none) = _
  rw [(contains_enabled cfg).2.2.1, he]
  simp

lemma init_find_render (cfg : GenerationConfig) :
    findStep (initTracker (get_enabled_steps cfg)).steps "render_template"
      = some (toRec ⟨"render_template", "Rendering template", 10⟩) := by
  have h := findStep_filter_map (fun s => (get_enabled_steps cfg).contains s.step_id)
    "render_template" GENERATION_STEPS GENERATION_STEPS_ids_nodup
  show findStep ((GENERATION_STEPS.filter
    (fun s => (get_enabled_steps cfg).contains s.step_id)).map toRec)
    "render_template" = _
  rw [h]
  show (if (get_enabled_steps cfg).contains "render_template" = true
    then some (toRec ⟨"render_template", "Rendering template", 10⟩)
    else none) = _
  rw [(contains_enabled cfg).2.2.2.2.2.2.2.1]
  simp

lemma init_find_publish (cfg : GenerationConfig) :
    findStep (initTracker (get_enabled_steps cfg)).steps "publish_ghost"
      = some (toRec ⟨"publish_ghost", "Publishing to Ghost", 5⟩) := by
  have h := findStep_filter_map (fun s => (get_enabled_steps cfg).contains s.step_id)
    "publish_ghost" GENERATION_STEPS GENERATION_STEPS_ids_nodup
  show findStep ((GENERATION_STEPS.filter
    (fun s => (get_enabled_steps cfg).contains s.step_id)).map toRec)
    "publish_ghost" = _
  rw [h]
  show (if (get_enabled_steps cfg).contains "publish_ghost" = true
    then some (toRec ⟨"publish_ghost", "Publishing to Ghost", 5⟩)
    else none) = _
  rw [(contains_enabled cfg).2.2.2.2.2.2.2.2]
  simp

lemma init_total_ne (cfg : GenerationConfig) :
    (initTracker (get_enabled_steps cfg)).total_weight ≠ 0 := by
  have hmem : (⟨"render_template", "Rendering template", 10⟩ : GenerationStep) ∈
      GENERATION_STEPS.filter
        (fun s => (get_enabled_steps cfg).contains s.step_id) := by
    rw [List.mem_filter]
    refine ⟨by decide, ?_⟩
    show (get_enabled_steps cfg).contains "render_template" = true
    exact (contains_enabled cfg).2.2.2.2.2.2.2.1
  have h10 : (10 : Nat) ∈ (GENERATION_STEPS.filter
      (fun s => (get_enabled_steps cfg).contains s.step_id)).map
        (fun s => s.weight) :=
    List.mem_map_of_mem _ hmem
  have hle := List.single_le_sum (l := (GENERATION_STEPS.filter
    (fun s => (get_enabled_steps cfg).contains s.step_id)).map (fun s => s.weight))
    (fun x _ => Nat.zero_le x) 10 h10
  show ((GENERATION_STEPS.filter
    (fun s => (get_enabled_steps cfg).contains s.step_id)).map
      (fun s => s.weight)).sum ≠ 0
  omega

lemma init_ids_sub (cfg : GenerationConfig) :
    ∀ x ∈ (initTracker (get_enabled_steps cfg)).steps.map (fun r => r.step),
      x ∈ stepIds := by
  intro x hx
  obtain ⟨r, hr, rfl⟩ := List.mem_map.mp hx
  obtain ⟨s, hs, rfl⟩ := List.mem_map.mp hr
  have hsG : s ∈ GENERATION_STEPS := List.mem_of_mem_filter hs
  have : ∀ s ∈ GENERATION_STEPS, s.step_id ∈ stepIds := by decide
  exact this s hsG

/-! ## Status bookkeeping across the step sequence -/

/-- Every record of one of the given ids is done. -/
def DoneUpTo (st : PipelineState) (ids : List String) : Prop :=
  ∀ sid ∈ ids, ∀ r ∈ st.tracker.steps, r.step = sid → isDone r = true

/-- Every record of one of the given ids is still untouched. -/
def PendFrom (st : PipelineState) (ids : List String) : Prop :=
  ∀ sid ∈ ids, ∀ r ∈ st.tracker.steps, r.step = sid → isDone r = false

lemma DoneUpTo.advance {cfg : GenerationConfig} {env : Env} {sid : String}
    {st st' : PipelineState} {ids : List String}
    (adv : StepAdv cfg env sid st st') (hnotin : sid ∉ ids)
    (hd : DoneUpTo st ids) : DoneUpTo st' (ids ++ [sid]) := by
  intro sid' hsid' r hr hrs
  rcases List.mem_append.mp hsid' with hm | hm
  · exact adv.done_preserved sid' (fun hc => hnotin (hc ▸ hm)) (hd sid' hm) r hr hrs
  · rcases List.mem_singleton.mp hm with rfl
    exact adv.done r hr hrs

lemma PendFrom.advancePend {cfg : GenerationConfig} {env : Env} {sid : String}
    {st st' : PipelineState} {ids : List String}
    (adv : StepAdv cfg env sid st st') (hnotin : sid ∉ ids)
    (hp : PendFrom st ids) : PendFrom st' ids := by
  intro sid' hsid' r hr hrs
  exact adv.pend_preserved sid' (fun hc => hnotin (hc ▸ hsid')) (hp sid' hsid') r hr hrs

/-- The resolved titles are absent or resolved from the corresponding
observed date. -/
def TitleInv (cfg : GenerationConfig) (env : Env) (st : PipelineState) : Prop :=
  (st.renderedTitle = none
    ∨ st.renderedTitle = some (render_title cfg.title env.renderDate))
  ∧ (st.publishedTitle = none
    ∨ st.publishedTitle = some (render_title cfg.title env.publishDate))

lemma TitleInv.advanceTitle {cfg : GenerationConfig} {env : Env} {sid : String}
    {st st' : PipelineState} (adv : StepAdv cfg env sid st st')
    (h : TitleInv cfg env st) : TitleInv cfg env st' := by
  constructor
  · rcases adv.rt with hr | hr
    · rw [hr]; exact h.1
    · exact Or.inr hr
  · rcases adv.pt with hp | hp
    · rw [hp]; exact h.2
    · exact Or.inr hp

/-- Cancelling always leaves the flag set. -/
lemma cancel_sets_flag (t : ProgressTracker) (msg : String) :
    (t.cancel_generation msg).1.is_cancelled = true := by
  cases hc : t.current_step with
  | none => simp [ProgressTracker.cancel_generation, hc]
  | some sid =>
    cases hf : findStep t.steps sid with
    | none => simp [ProgressTracker.cancel_generation, hc, hf]
    | some r =>
      by_cases h : r.status = .running <;>
        simp [ProgressTracker.cancel_generation, hc, hf, h]

lemma checkpoint_not (env : Env) (k : Nat) (st : PipelineState)
    (h : ¬ env.cancelAt = some k) : checkpoint env k st = st := by
  simp [checkpoint, h]

lemma checkpoint_cancelled (env : Env) (k : Nat) (st : PipelineState)
    (h : env.cancelAt = some k) :
    (checkpoint env k st).tracker.is_cancelled = true := by
  rw [checkpoint, if_pos h]
  exact cancel_sets_flag st.tracker "Generation cancelled"

/-- Record left for an enabled optional source whose adapter raised: the step
completes with message "Fetch failed, continuing" and zero items. -/
lemma fetch_optional_source_err_record (env : Env) (m : String)
    (sid startMsg : String) (foundMsg : Nat → String)
    (setCount : Nat → PipelineState → PipelineState) (st : PipelineState)
    (hset_tr : ∀ n s, (setCount n s).tracker = s.tracker)
    (hnc : st.tracker.is_cancelled = false) (r2 : ProgressStep)
    (hfr : findStep st.tracker.steps sid = some r2) :
    findStep (fetch_optional_source true (.error m) sid startMsg foundMsg
      setCount st).tracker.steps sid
      = some (successUpd "Fetch failed, continuing" (some 0)
          (runningUpd startMsg r2)) := by
  obtain ⟨heq1, -⟩ := start_step_some st.tracker sid (some startMsg) r2 hnc hfr
  have hnc1 : (st.tracker.start_step sid (some startMsg)).1.is_cancelled = false := by
    rw [heq1]; exact hnc
  have hf1 : findStep (st.tracker.start_step sid (some startMsg)).1.steps sid
      = some (runningUpd ((some startMsg).getD r2.message) r2) := by
    rw [heq1]
    show findStep (updFirst (runningUpd ((some startMsg).getD r2.message)) sid
      st.tracker.steps) sid = _
    rw [updFirst_findStep_self (runningUpd ((some startMsg).getD r2.message)) sid
      st.tracker.steps (fun _ => rfl), hfr]
    rfl
  obtain ⟨heq2, -⟩ := complete_step_some (st.tracker.start_step sid (some startMsg)).1
    sid (some "Fetch failed, continuing") (some 0)
    (runningUpd ((some startMsg).getD r2.message) r2) hnc1 hf1
  show findStep (((st.run (fun t => t.start_step sid (some startMsg))).tracker.complete_step
    sid (some "Fetch failed, continuing") (some 0)).1).steps sid = _
  show findStep (((st.tracker.start_step sid (some startMsg)).1.complete_step
    sid (some "Fetch failed, continuing") (some 0)).1).steps sid = _
  rw [heq2]
  show findStep (updFirst (successUpd
      ((some "Fetch failed, continuing").getD
        (runningUpd ((some startMsg).getD r2.message) r2).message)
      (resolveIc (some 0) (runningUpd ((some startMsg).getD r2.message) r2))) sid
    (st.tracker.start_step sid (some startMsg)).1.steps) sid = _
  rw [updFirst_findStep_self (successUpd
      ((some "Fetch failed, continuing").getD
        (runningUpd ((some startMsg).getD r2.message) r2).message)
      (resolveIc (some 0) (runningUpd ((some startMsg).getD r2.message) r2))) sid
    (st.tracker.start_step sid (some startMsg)).1.steps (fun _ => rfl), hf1]
  rfl

/-- Progress is exactly 100 once the completed weight reaches a non-zero
total. -/
lemma calc_progress_eq_100 (t : ProgressTracker)
    (h : t.completed_weight = t.total_weight) (h0 : t.total_weight ≠ 0) :
    t.calculate_progress = 100 := by
  unfold ProgressTracker.calculate_progress
  rw [if_neg h0, h, Nat.mul_comm, Nat.mul_div_cancel _ (Nat.pos_of_ne_zero h0)]
  simp

lemma PendFrom.mono {st : PipelineState} {ids ids' : List String}
    (h : PendFrom st ids) (hsub : ∀ s ∈ ids', s ∈ ids) : PendFrom st ids' :=
  fun sid hm => h sid (hsub sid hm)

/-- The terminal event `complete_generation` publishes on the normal success
path. -/
def genCompleteEv : ProgressEvent :=
  ⟨"generation_complete", "complete", 100, "Newsletter generated successfully"⟩

/-- The record an enabled optional source is left with after a soft failure. -/
def softFailRec (sid : String) : ProgressStep :=
  ⟨sid, .success, some 0, "Fetch failed, continuing", none⟩

/-- Everything the claims need about a run that completed normally. -/
def CompletedBundle (cfg : GenerationConfig) (env : Env) (st : PipelineState) : Prop :=
  st.tracker.completed_weight = st.tracker.total_weight
  ∧ sumDoneW st.tracker.steps = st.tracker.total_weight
  ∧ st.tracker.total_weight ≠ 0
  ∧ st.tracker.calculate_progress = 100
  ∧ (∃ pre, st.events = pre ++ [genCompleteEv] ∧ ∀ e ∈ pre, e.isTerminal = false)
  ∧ TitleInv cfg env st
  ∧ (∀ m, cfg.romm.enabled = true → env.romm = .error m →
      findStep st.tracker.steps "fetch_romm" = some (softFailRec "fetch_romm"))

/-- Everything the claims need about a run aborted by a fatal step error. -/
structure FatalMaster (cfg : GenerationConfig) (env : Env) (f : FatalError) : Prop where
  stepIn : f.step = "fetch_tautulli" ∨ f.step = "render_template"
    ∨ f.step = "publish_ghost"
  errT : ∃ m, f.errText = genErrMsg f.step m
  cur : f.st.tracker.current_step = some f.step
  present : (findStep f.st.tracker.steps f.step).isSome = true
  evs : ∃ pre e2, f.st.events = pre ++ [e2] ∧ (∀ x ∈ pre, x.isTerminal = false)
    ∧ e2.type = "step_error"
  ti : TitleInv cfg env f.st

lemma fatalMaster_of (cfg : GenerationConfig) (env : Env) (stK : PipelineState)
    (f : FatalError) (fo : FatalOut cfg env stK f)
    (hstep : f.step = "fetch_tautulli" ∨ f.step = "render_template"
      ∨ f.step = "publish_ghost")
    (hev : EventsOK stK) (hti : TitleInv cfg env stK) : FatalMaster cfg env f := by
  refine ⟨hstep, fo.errT, fo.cur, fo.present, ?_, ?_⟩
  · obtain ⟨pre, e2, hevs, hpre, he2⟩ := fo.evs
    refine ⟨stK.events ++ pre, e2, hevs, ?_, he2⟩
    intro x hx
    rcases List.mem_append.mp hx with hm | hm
    · exact hev x hm
    · exact hpre x hm
  · constructor
    · rcases fo.rt with h | h
      · rw [h]; exact hti.1
      · exact Or.inr h
    · rcases fo.pt with h | h
      · rw [h]; exact hti.2
      · exact Or.inr h

/-- The per-outcome specification of the step sequence. -/
def OutcomeSpec (cfg : GenerationConfig) (env : Env) : PipeOutcome → Prop
  | .completed st _ _ => CompletedBundle cfg env st
  | .skippedEmpty st => TitleInv cfg env st
  | .cancelled st => TitleInv cfg env st
  | .fatal f => FatalMaster cfg env f

lemma checkpoint_pos (env : Env) (k : Nat) (st : PipelineState)
    (h : env.cancelAt = some k) :
    checkpoint env k st = st.run (fun t => t.cancel_generation "Generation cancelled") := by
  simp [checkpoint, h]

/-- Master walk over the step sequence: every outcome of `runSteps`
satisfies its bundle. -/
lemma runSteps_spec (cfg : GenerationConfig) (env : Env) :
    OutcomeSpec cfg env (runSteps cfg env) := by
  have hok0 := initPipelineState_stok cfg
  have hpend0 : PendFrom (initPipelineState cfg) stepIds :=
    fun sid _ r hr _ => initTracker_pend _ r hr
  have hdone0 : DoneUpTo (initPipelineState cfg) [] := fun sid h => by simp at h
  have hev0 : EventsOK (initPipelineState cfg) := by
    intro e he
    simp only [initPipelineState, List.mem_singleton] at he
    rw [he]
    rfl
  have hti0 : TitleInv cfg env (initPipelineState cfg) := ⟨Or.inl rfl, Or.inl rfl⟩
  simp only [runSteps]
  cases h1 : fetch_tautulli cfg env (initPipelineState cfg) with
  | error f =>
    dsimp only
    obtain ⟨hstep, fo⟩ := fetch_tautulli_err cfg env _ f hok0
      (hpend0 "fetch_tautulli" (by decide))
      (fun he => ⟨_, init_find_tautulli cfg he⟩) h1
    exact fatalMaster_of cfg env _ f fo (Or.inl hstep) hev0 hti0
  | ok st1 =>
    dsimp only
    have adv1 := fetch_tautulli_ok cfg env _ st1 hok0
      (hpend0 "fetch_tautulli" (by decide)) h1
    have hok1 := adv1.stok hok0
    have hpend1 : PendFrom st1 (stepIds.drop 1) :=
      PendFrom.advancePend adv1 (by decide) (hpend0.mono (by decide))
    have hdone1 : DoneUpTo st1 (stepIds.take 1) :=
      (by decide : ([] : List String) ++ ["fetch_tautulli"] = stepIds.take 1) ▸
        DoneUpTo.advance adv1 (by simp) hdone0
    have hev1 := adv1.eventsOK hev0
    have hti1 := TitleInv.advanceTitle adv1 hti0
    have hids1 := adv1.ids
    have htw1 := adv1.tw
    by_cases hck0 : env.cancelAt = some 0
    · rw [checkpoint_pos env 0 st1 hck0, if_pos (show
        (st1.run (fun t => t.cancel_generation "Generation cancelled")).tracker.is_cancelled
          = true from cancel_sets_flag st1.tracker "Generation cancelled")]
      exact ⟨hti1.1, hti1.2⟩
    · rw [checkpoint_not env 0 st1 hck0,
        if_neg (show ¬ (st1.tracker.is_cancelled = true) from by rw [hok1.nc]; simp)]
      have adv2 := enrich_tmdb_adv cfg env st1 hok1 (hpend1 "enrich_tmdb" (by decide))
      set st2 := enrich_tmdb cfg env st1 with hst2
      have hok2 := adv2.stok hok1
      have hpend2 : PendFrom st2 (stepIds.drop 2) :=
        PendFrom.advancePend adv2 (by decide) (hpend1.mono (by decide))
      have hdone2 : DoneUpTo st2 (stepIds.take 2) :=
        (by decide : stepIds.take 1 ++ ["enrich_tmdb"] = stepIds.take 2) ▸
          DoneUpTo.advance adv2 (by decide) hdone1
      have hev2 := adv2.eventsOK hev1
      have hti2 := TitleInv.advanceTitle adv2 hti1
      have hids2 := adv2.ids.trans hids1
      have htw2 := adv2.tw.trans htw1
      by_cases hck1 : env.cancelAt = some 1
      · rw [checkpoint_pos env 1 st2 hck1, if_pos (show
          (st2.run (fun t => t.cancel_generation "Generation cancelled")).tracker.is_cancelled
            = true from cancel_sets_flag st2.tracker "Generation cancelled")]
        exact ⟨hti2.1, hti2.2⟩
      · rw [checkpoint_not env 1 st2 hck1,
          if_neg (show ¬ (st2.tracker.is_cancelled = true) from by rw [hok2.nc]; simp)]
        have adv3 := fetch_romm_adv cfg env st2 hok2 (hpend2 "fetch_romm" (by decide))
        set st3 := fetch_romm cfg env st2 with hst3
        have hok3 := adv3.stok hok2
        have hpend3 : PendFrom st3 (stepIds.drop 3) :=
          PendFrom.advancePend adv3 (by decide) (hpend2.mono (by decide))
        have hdone3 : DoneUpTo st3 (stepIds.take 3) :=
          (by decide : stepIds.take 2 ++ ["fetch_romm"] = stepIds.take 3) ▸
            DoneUpTo.advance adv3 (by decide) hdone2
        have hev3 := adv3.eventsOK hev2
        have hti3 := TitleInv.advanceTitle adv3 hti2
        have hids3 := adv3.ids.trans hids2
        have htw3 := adv3.tw.trans htw2
        have hromm3 : ∀ m, cfg.romm.enabled = true → env.romm = .error m →
            findStep st3.tracker.steps "fetch_romm" = some (softFailRec "fetch_romm") := by
          intro m hre hrom
          have hfr2 : findStep st2.tracker.steps "fetch_romm"
              = some (toRec ⟨"fetch_romm", "Fetching games from ROMM", 10⟩) := by
            rw [adv2.findf "fetch_romm" (by decide), adv1.findf "fetch_romm" (by decide)]
            exact init_find_romm cfg hre
          have he3 : st3 = fetch_optional_source true (.error m) "fetch_romm"
              "Fetching games from ROMM..."
              (fun n => "Found " ++ toString n ++ " games")
              (fun n st => { st with games := n }) st2 := by
            rw [hst3]
            unfold fetch_romm
            rw [hre, hrom]
          rw [he3, fetch_optional_source_err_record env m "fetch_romm"
            "Fetching games from ROMM..." (fun n => "Found " ++ toString n ++ " games")
            (fun n st => { st with games := n }) st2 (fun _ _ => rfl) hok2.nc
            (toRec ⟨"fetch_romm", "Fetching games from ROMM", 10⟩) hfr2]
          rfl
        by_cases hck2 : env.cancelAt = some 2
        · rw [checkpoint_pos env 2 st3 hck2, if_pos (show
            (st3.run (fun t => t.cancel_generation "Generation cancelled")).tracker.is_cancelled
              = true from cancel_sets_flag st3.tracker "Generation cancelled")]
          exact ⟨hti3.1, hti3.2⟩
        · rw [checkpoint_not env 2 st3 hck2,
            if_neg (show ¬ (st3.tracker.is_cancelled = true) from by rw [hok3.nc]; simp)]
          have adv4 := fetch_komga_adv cfg env st3 hok3 (hpend3 "fetch_komga" (by decide))
          set st4 := fetch_komga cfg env st3 with hst4
          have hok4 := adv4.stok hok3
          have hpend4 : PendFrom st4 (stepIds.drop 4) :=
            PendFrom.advancePend adv4 (by decide) (hpend3.mono (by decide))
          have hdone4 : DoneUpTo st4 (stepIds.take 4) :=
            (by decide : stepIds.take 3 ++ ["fetch_komga"] = stepIds.take 4) ▸
              DoneUpTo.advance adv4 (by decide) hdone3
          have hev4 := adv4.eventsOK hev3
          have hti4 := TitleInv.advanceTitle adv4 hti3
          have hids4 := adv4.ids.trans hids3
          have htw4 := adv4.tw.trans htw3
          have hromm4 : ∀ m, cfg.romm.enabled = true → env.romm = .error m →
              findStep st4.tracker.steps "fetch_romm" = some (softFailRec "fetch_romm") :=
            fun m hre hrom => (adv4.findf "fetch_romm" (by decide)).trans
              (hromm3 m hre hrom)
          by_cases hck3 : env.cancelAt = some 3
          · rw [checkpoint_pos env 3 st4 hck3, if_pos (show
              (st4.run (fun t => t.cancel_generation "Generation cancelled")).tracker.is_cancelled
                = true from cancel_sets_flag st4.tracker "Generation cancelled")]
            exact ⟨hti4.1, hti4.2⟩
          · rw [checkpoint_not env 3 st4 hck3,
              if_neg (show ¬ (st4.tracker.is_cancelled = true) from by rw [hok4.nc]; simp)]
            have adv5 := fetch_audiobookshelf_adv cfg env st4 hok4
              (hpend4 "fetch_audiobookshelf" (by decide))
            set st5 := fetch_audiobookshelf cfg env st4 with hst5
            have hok5 := adv5.stok hok4
            have hpend5 : PendFrom st5 (stepIds.drop 5) :=
              PendFrom.advancePend adv5 (by decide) (hpend4.mono (by decide))
            have hdone5 : DoneUpTo st5 (stepIds.take 5) :=
              (by decide :
                stepIds.take 4 ++ ["fetch_audiobookshelf"] = stepIds.take 5) ▸
                DoneUpTo.advance adv5 (by decide) hdone4
            have hev5 := adv5.eventsOK hev4
            have hti5 := TitleInv.advanceTitle adv5 hti4
            have hids5 := adv5.ids.trans hids4
            have htw5 := adv5.tw.trans htw4
            have hromm5 : ∀ m, cfg.romm.enabled = true → env.romm = .error m →
                findStep st5.tracker.steps "fetch_romm" = some (softFailRec "fetch_romm") :=
              fun m hre hrom => (adv5.findf "fetch_romm" (by decide)).trans
                (hromm4 m hre hrom)
            by_cases hck4 : env.cancelAt = some 4
            · rw [checkpoint_pos env 4 st5 hck4, if_pos (show
                (st5.run (fun t => t.cancel_generation "Generation cancelled")).tracker.is_cancelled
                  = true from cancel_sets_flag st5.tracker "Generation cancelled")]
              exact ⟨hti5.1, hti5.2⟩
            · rw [checkpoint_not env 4 st5 hck4,
                if_neg (show ¬ (st5.tracker.is_cancelled = true) from by
                  rw [hok5.nc]; simp)]
              have adv6 := fetch_tunarr_adv cfg env st5 hok5
                (hpend5 "fetch_tunarr" (by decide))
              set st6 := fetch_tunarr cfg env st5 with hst6
              have hok6 := adv6.stok hok5
              have hpend6 : PendFrom st6 (stepIds.drop 6) :=
                PendFrom.advancePend adv6 (by decide) (hpend5.mono (by decide))
              have hdone6 : DoneUpTo st6 (stepIds.take 6) :=
                (by decide : stepIds.take 5 ++ ["fetch_tunarr"] = stepIds.take 6) ▸
                  DoneUpTo.advance adv6 (by decide) hdone5
              have hev6 := adv6.eventsOK hev5
              have hti6 := TitleInv.advanceTitle adv6 hti5
              have hids6 := adv6.ids.trans hids5
              have htw6 := adv6.tw.trans htw5
              have hromm6 : ∀ m, cfg.romm.enabled = true → env.romm = .error m →
                  findStep st6.tracker.steps "fetch_romm"
                    = some (softFailRec "fetch_romm") :=
                fun m hre hrom => (adv6.findf "fetch_romm" (by decide)).trans
                  (hromm5 m hre hrom)
              by_cases hck5 : env.cancelAt = some 5
              · rw [checkpoint_pos env 5 st6 hck5, if_pos (show
                  (st6.run (fun t => t.cancel_generation "Generation cancelled")).tracker.is_cancelled
                    = true from cancel_sets_flag st6.tracker "Generation cancelled")]
                exact ⟨hti6.1, hti6.2⟩
              · rw [checkpoint_not env 5 st6 hck5,
                  if_neg (show ¬ (st6.tracker.is_cancelled = true) from by
                    rw [hok6.nc]; simp)]
                have adv7 := fetch_statistics_adv cfg env st6 hok6
                  (hpend6 "fetch_statistics" (by decide))
                set st7 := fetch_statistics cfg env st6 with hst7
                have hok7 := adv7.stok hok6
                have hpend7 : PendFrom st7 (stepIds.drop 7) :=
                  PendFrom.advancePend adv7 (by decide) (hpend6.mono (by decide))
                have hdone7 : DoneUpTo st7 (stepIds.take 7) :=
                  (by decide :
                    stepIds.take 6 ++ ["fetch_statistics"] = stepIds.take 7) ▸
                    DoneUpTo.advance adv7 (by decide) hdone6
                have hev7 := adv7.eventsOK hev6
                have hti7 := TitleInv.advanceTitle adv7 hti6
                have hids7 := adv7.ids.trans hids6
                have htw7 := adv7.tw.trans htw6
                have hromm7 : ∀ m, cfg.romm.enabled = true → env.romm = .error m →
                    findStep st7.tracker.steps "fetch_romm"
                      = some (softFailRec "fetch_romm") :=
                  fun m hre hrom => (adv7.findf "fetch_romm" (by decide)).trans
                    (hromm6 m hre hrom)
                by_cases hck6 : env.cancelAt = some 6
                · rw [checkpoint_pos env 6 st7 hck6, if_pos (show
                    (st7.run (fun t => t.cancel_generation "Generation cancelled")).tracker.is_cancelled
                      = true from cancel_sets_flag st7.tracker "Generation cancelled")]
                  exact ⟨hti7.1, hti7.2⟩
                · rw [checkpoint_not env 6 st7 hck6,
                    if_neg (show ¬ (st7.tracker.is_cancelled = true) from by
                      rw [hok7.nc]; simp)]
                  split
                  · exact ⟨hti7.1, hti7.2⟩
                  · have hfr_r : findStep st7.tracker.steps "render_template"
                        = some (toRec ⟨"render_template", "Rendering template", 10⟩) := by
                      rw [adv7.findf "render_template" (by decide),
                        adv6.findf "render_template" (by decide),
                        adv5.findf "render_template" (by decide),
                        adv4.findf "render_template" (by decide),
                        adv3.findf "render_template" (by decide),
                        adv2.findf "render_template" (by decide),
                        adv1.findf "render_template" (by decide)]
                      exact init_find_render cfg
                    cases h8 : render_template cfg env st7 with
                    | error f =>
                      dsimp only
                      obtain ⟨hstep, fo⟩ := render_template_err cfg env st7 f hok7
                        (hpend7 "render_template" (by decide)) ⟨_, hfr_r⟩ h8
                      exact fatalMaster_of cfg env st7 f fo (Or.inr (Or.inl hstep))
                        hev7 hti7
                    | ok p =>
                      obtain ⟨st8, html⟩ := p
                      dsimp only
                      have adv8 := render_template_ok cfg env st7 st8 html hok7
                        (hpend7 "render_template" (by decide)) h8
                      have hok8 := adv8.stok hok7
                      have hpend8 : PendFrom st8 (stepIds.drop 8) :=
                        PendFrom.advancePend adv8 (by decide) (hpend7.mono (by decide))
                      have hdone8 : DoneUpTo st8 (stepIds.take 8) :=
                        (by decide :
                          stepIds.take 7 ++ ["render_template"] = stepIds.take 8) ▸
                          DoneUpTo.advance adv8 (by decide) hdone7
                      have hev8 := adv8.eventsOK hev7
                      have hti8 := TitleInv.advanceTitle adv8 hti7
                      have hids8 := adv8.ids.trans hids7
                      have htw8 := adv8.tw.trans htw7
                      have hromm8 : ∀ m, cfg.romm.enabled = true → env.romm = .error m →
                          findStep st8.tracker.steps "fetch_romm"
                            = some (softFailRec "fetch_romm") :=
                        fun m hre hrom => (adv8.findf "fetch_romm" (by decide)).trans
                          (hromm7 m hre hrom)
                      by_cases hck7 : env.cancelAt = some 7
                      · rw [checkpoint_pos env 7 st8 hck7, if_pos (show
                          (st8.run (fun t =>
                            t.cancel_generation "Generation cancelled")).tracker.is_cancelled
                            = true from cancel_sets_flag st8.tracker "Generation cancelled")]
                        exact ⟨hti8.1, hti8.2⟩
                      · rw [checkpoint_not env 7 st8 hck7,
                          if_neg (show ¬ (st8.tracker.is_cancelled = true) from by
                            rw [hok8.nc]; simp)]
                        have hfr_p : findStep st8.tracker.steps "publish_ghost"
                            = some (toRec ⟨"publish_ghost", "Publishing to Ghost", 5⟩) := by
                          rw [adv8.findf "publish_ghost" (by decide),
                            adv7.findf "publish_ghost" (by decide),
                            adv6.findf "publish_ghost" (by decide),
                            adv5.findf "publish_ghost" (by decide),
                            adv4.findf "publish_ghost" (by decide),
                            adv3.findf "publish_ghost" (by decide),
                            adv2.findf "publish_ghost" (by decide),
                            adv1.findf "publish_ghost" (by decide)]
                          exact init_find_publish cfg
                        cases h9 : publish_ghost cfg env st8 with
                        | error f =>
                          dsimp only
                          obtain ⟨hstep, fo⟩ := publish_ghost_err cfg env st8 f hok8
                            (hpend8 "publish_ghost" (by decide)) ⟨_, hfr_p⟩ h9
                          exact fatalMaster_of cfg env st8 f fo
                            (Or.inr (Or.inr hstep)) hev8 hti8
                        | ok p =>
                          obtain ⟨st9, url⟩ := p
                          dsimp only
                          have adv9 := publish_ghost_ok cfg env st8 st9 url hok8
                            (hpend8 "publish_ghost" (by decide)) h9
                          have hok9 := adv9.stok hok8
                          have hdone9 : DoneUpTo st9 stepIds :=
                            (by decide :
                              stepIds.take 8 ++ ["publish_ghost"] = stepIds) ▸
                              DoneUpTo.advance adv9 (by decide) hdone8
                          have hev9 := adv9.eventsOK hev8
                          have hti9 := TitleInv.advanceTitle adv9 hti8
                          have hids9 := adv9.ids.trans hids8
                          have htw9 := adv9.tw.trans htw8
                          have hromm9 : ∀ m, cfg.romm.enabled = true →
                              env.romm = .error m →
                              findStep st9.tracker.steps "fetch_romm"
                                = some (softFailRec "fetch_romm") :=
                            fun m hre hrom =>
                              (adv9.findf "fetch_romm" (by decide)).trans
                                (hromm8 m hre hrom)
                          have hall : ∀ r ∈ st9.tracker.steps, isDone r = true := by
                            intro r hr
                            have hmem : r.step ∈ st9.tracker.steps.map
                                (fun x => x.step) := List.mem_map_of_mem _ hr
                            rw [hids9] at hmem
                            exact hdone9 r.step (init_ids_sub cfg r.step hmem) r hr rfl
                          have hsum : sumDoneW st9.tracker.steps
                              = st9.tracker.total_weight := by
                            rw [sumDoneW_eq_sumAllW_of_all_done _ hall,
                              sumAllW_eq_of_map_eq _ _ hids9, htw9]
                            exact (initTracker_tw (get_enabled_steps cfg)).symm
                          have hcw : st9.tracker.completed_weight
                              = st9.tracker.total_weight := by
                            rw [hok9.wv, hsum]
                          have htne : st9.tracker.total_weight ≠ 0 := by
                            rw [htw9]
                            exact init_total_ne cfg
                          refine ⟨hcw, hsum, htne, calc_progress_eq_100 _ hcw htne,
                            ⟨st9.events, rfl, hev9⟩, ⟨hti9.1, hti9.2⟩, ?_⟩
                          exact fun m hre hrom => hromm9 m hre hrom

/-! ## Demonstration configurations and environments -/

/-- A configuration with every content source enabled and a week-number
title template. -/
def demoCfg : GenerationConfig :=
  { template_id := "tpl-1"
    title := [.lit "Newsletter ", .date_week]
    publication_mode := .draft
    ghost_newsletter_id := none
    tautulli := { enabled := true, days := 7, max_items := 25 }
    romm := { enabled := true, days := 7, max_items := 25 }
    komga := { enabled := true, days := 7, max_items := 25 }
    audiobookshelf := { enabled := true, days := 7, max_items := 25 }
    tunarr := { enabled := true, days := 7, max_items := 25 }
    statistics := { enabled := true, days := 7, include_comparison := true }
    maintenance := { enabled := false }
    max_total_items := 100
    skip_if_empty := false }

/-- An environment in which every external call succeeds and both observed
date contexts agree. -/
def demoEnv : Env :=
  { tautulli := .items 3 4
    tmdb := .items 7
    romm := .items 2
    komga := .items 1
    audiobookshelf := .items 1
    tunarr := .items 5
    statistics := .items 1
    render := .html "<html/>"
    ghost := .post "post-1" (some "https://ghost.local/p/post-1")
    renderDate := { year := 2026, month_num := 10, day := 12, week := 42 }
    publishDate := { year := 2026, month_num := 10, day := 12, week := 42 }
    cancelAt := none }

/-- The demonstration configuration with every content source disabled and
the skip-if-empty short circuit armed. -/
def emptyCfg : GenerationConfig :=
  { demoCfg with
    tautulli := { enabled := false, days := 7, max_items := 25 }
    romm := { enabled := false, days := 7, max_items := 25 }
    komga := { enabled := false, days := 7, max_items := 25 }
    audiobookshelf := { enabled := false, days := 7, max_items := 25 }
    tunarr := { enabled := false, days := 7, max_items := 25 }
    statistics := { enabled := false, days := 7, include_comparison := true }
    skip_if_empty := true }

/-- The success environment with the ROMM adapter raising (a soft failure). -/
def sourceErrEnv : Env := { demoEnv with romm := .error "ROMM down" }

/-- The success environment with the Tautulli adapter raising (fatal). -/
def fatalEnv : Env := { demoEnv with tautulli := .error "down" }

/-- The success environment with the two observed date contexts diverging
across a week boundary between rendering and publishing. -/
def driftEnv : Env :=
  { demoEnv with
    renderDate := { year := 2026, month_num := 1, day := 10, week := 2 }
    publishDate := { year := 2026, month_num := 1, day := 12, week := 3 } }

/-! ## Projections of `PipelineState.run` and the publish fold -/

lemma run_renderedTitle (st : PipelineState)
    (g : ProgressTracker → ProgressTracker × List ProgressEvent) :
    (st.run g).renderedTitle = st.renderedTitle := rfl

lemma run_publishedTitle (st : PipelineState)
    (g : ProgressTracker → ProgressTracker × List ProgressEvent) :
    (st.run g).publishedTitle = st.publishedTitle := rfl

lemma run_events (st : PipelineState)
    (g : ProgressTracker → ProgressTracker × List ProgressEvent) :
    (st.run g).events = st.events ++ (g st.tracker).2 := rfl

lemma foldl_publish_completed (l : List ProgressEvent) (b : BusState) :
    (l.foldl publish b).completed = (b.completed || l.any (fun e => e.isTerminal)) := by
  induction l generalizing b with
  | nil => simp
  | cons e rest ih =>
    simp [List.foldl_cons, ih, publish, Bool.or_assoc]

/-- The resolved titles of the persisted final state satisfy the title
invariant, whatever the outcome of the run. -/
lemma execute_titleInv (cfg : GenerationConfig) (env : Env) :
    TitleInv cfg env (execute_pipeline cfg env).st := by
  have hspec := runSteps_spec cfg env
  cases hr : runSteps cfg env with
  | completed st url total =>
    rw [hr] at hspec
    have hb : CompletedBundle cfg env st := hspec
    simp only [execute_pipeline, hr]
    exact hb.2.2.2.2.2.1
  | skippedEmpty st =>
    rw [hr] at hspec
    have hb : TitleInv cfg env st := hspec
    simp only [execute_pipeline, hr]
    exact hb
  | cancelled st =>
    rw [hr] at hspec
    have hb : TitleInv cfg env st := hspec
    simp only [execute_pipeline, hr, handle_cancellation]
    exact ⟨by rw [run_renderedTitle]; exact hb.1,
      by rw [run_publishedTitle]; exact hb.2⟩
  | fatal f =>
    rw [hr] at hspec
    have hm : FatalMaster cfg env f := hspec
    simp only [execute_pipeline, hr, hm.cur]
    exact ⟨by rw [run_renderedTitle]; exact hm.ti.1,
      by rw [run_publishedTitle]; exact hm.ti.2⟩

/-! ## Main pipeline claims -/

/-- C1 counterexample: with every source disabled and `skip_if_empty` set,
the run ends with the terminal `generation_complete` event, is neither
cancelled nor failed, yet the done-step weight sum is 0 while the tracker's
total weight is 15, and the tracker's computed progress is 0 even though the
terminal event hardcodes progress 100. -/
theorem C1_counterexample :
    Option.map (fun e => e.type) (execute_pipeline emptyCfg demoEnv).st.events.getLast?
      = some "generation_complete"
    ∧ (execute_pipeline emptyCfg demoEnv).status = .success
    ∧ (execute_pipeline emptyCfg demoEnv).st.tracker.is_cancelled = false
    ∧ Option.map (fun e => e.progress) (execute_pipeline emptyCfg demoEnv).st.events.getLast?
      = some 100
    ∧ sumDoneW (execute_pipeline emptyCfg demoEnv).st.tracker.steps = 0
    ∧ (execute_pipeline emptyCfg demoEnv).st.tracker.total_weight = 15
    ∧ (execute_pipeline emptyCfg demoEnv).st.tracker.calculate_progress = 0 := by
  decide

/-- C1 (amended): for runs that complete the full pipeline — persisted status
Success with no error message, which excludes the skip-if-empty path — the
weight sum of the completed and skipped steps equals the tracker's total
weight, the computed progress is 100, and the event list ends with the
terminal `generation_complete` event. -/
theorem C1_weight_conservation (cfg : GenerationConfig) (env : Env)
    (hs : (execute_pipeline cfg env).status = .success)
    (he : (execute_pipeline cfg env).error_message = none) :
    sumDoneW (execute_pipeline cfg env).st.tracker.steps
      = (execute_pipeline cfg env).st.tracker.total_weight
    ∧ (execute_pipeline cfg env).st.tracker.calculate_progress = 100
    ∧ ∃ pre, (execute_pipeline cfg env).st.events = pre ++ [genCompleteEv] := by
  have hspec := runSteps_spec cfg env
  cases hr : runSteps cfg env with
  | completed st url total =>
    rw [hr] at hspec
    have hb : CompletedBundle cfg env st := hspec
    obtain ⟨hcw, hsum, htne, hprog, ⟨pre, hpre, hnt⟩, hti, hromm⟩ := hb
    simp only [execute_pipeline, hr]
    exact ⟨hsum, hprog, ⟨pre, hpre⟩⟩
  | skippedEmpty st =>
    simp [execute_pipeline, hr] at he
  | cancelled st =>
    simp [execute_pipeline, hr, handle_cancellation] at hs
  | fatal f =>
    simp [execute_pipeline, hr] at hs

theorem C1_weight_conservation_witness :
    (execute_pipeline demoCfg demoEnv).status = .success
    ∧ (execute_pipeline demoCfg demoEnv).error_message = none
    ∧ (sumDoneW (execute_pipeline demoCfg demoEnv).st.tracker.steps
        = (execute_pipeline demoCfg demoEnv).st.tracker.total_weight
      ∧ (execute_pipeline demoCfg demoEnv).st.tracker.calculate_progress = 100
      ∧ ∃ pre, (execute_pipeline demoCfg demoEnv).st.events = pre ++ [genCompleteEv]) :=
  ⟨by decide, by decide, C1_weight_conservation demoCfg demoEnv (by decide) (by decide)⟩

/-- C2 counterexample: with ROMM enabled and its adapter raising, the run
still succeeds with no top-level error and zero games counted, but the
`fetch_romm` record is marked Success (not Failed) with message
"Fetch failed, continuing" and its error field left unset. -/
theorem C2_counterexample :
    (execute_pipeline demoCfg sourceErrEnv).status = .success
    ∧ (execute_pipeline demoCfg sourceErrEnv).error_message = none
    ∧ (execute_pipeline demoCfg sourceErrEnv).st.games = 0
    ∧ findStep (execute_pipeline demoCfg sourceErrEnv).st.tracker.steps "fetch_romm"
      = some (softFailRec "fetch_romm")
    ∧ (softFailRec "fetch_romm").status = .success
    ∧ (softFailRec "fetch_romm").error = none := by
  decide

/-- C2 (amended): when the adapter of the enabled optional ROMM source
raises, the pipeline continues, the run can still end Success with no
top-level error, and that step's own record is then marked Success with
zero items, message "Fetch failed, continuing", and no recorded error. -/
theorem C2_soft_failure (cfg : GenerationConfig) (env : Env) (m : String)
    (hen : cfg.romm.enabled = true) (herr : env.romm = .error m)
    (hs : (execute_pipeline cfg env).status = .success)
    (he : (execute_pipeline cfg env).error_message = none) :
    findStep (execute_pipeline cfg env).st.tracker.steps "fetch_romm"
      = some (softFailRec "fetch_romm")
    ∧ (softFailRec "fetch_romm").status = .success
    ∧ (softFailRec "fetch_romm").items_count = some 0
    ∧ (softFailRec "fetch_romm").error = none := by
  have hspec := runSteps_spec cfg env
  cases hr : runSteps cfg env with
  | completed st url total =>
    rw [hr] at hspec
    have hb : CompletedBundle cfg env st := hspec
    simp only [execute_pipeline, hr]
    exact ⟨hb.2.2.2.2.2.2 m hen herr, rfl, rfl, rfl⟩
  | skippedEmpty st =>
    simp [execute_pipeline, hr] at he
  | cancelled st =>
    simp [execute_pipeline, hr, handle_cancellation] at hs
  | fatal f =>
    simp [execute_pipeline, hr] at hs

theorem C2_soft_failure_witness :
    demoCfg.romm.enabled = true
    ∧ sourceErrEnv.romm = .error "ROMM down"
    ∧ (execute_pipeline demoCfg sourceErrEnv).status = .success
    ∧ (execute_pipeline demoCfg sourceErrEnv).error_message = none
    ∧ (findStep (execute_pipeline demoCfg sourceErrEnv).st.tracker.steps "fetch_romm"
        = some (softFailRec "fetch_romm")
      ∧ (softFailRec "fetch_romm").status = .success
      ∧ (softFailRec "fetch_romm").items_count = some 0
      ∧ (softFailRec "fetch_romm").error = none) :=
  ⟨by decide, by decide, by decide, by decide,
    C2_soft_failure demoCfg sourceErrEnv "ROMM down"
      (by decide) (by decide) (by decide) (by decide)⟩

/-- C6: whenever a run is aborted by a fatal step error — recorded in the
result as `fatalStep = some s` — the persisted status is Failed, the raising
step is the primary fetch, render, or publish step, and the persisted error
message is exactly "Generation failed at s: m" for the step's own error
text m, so it contains that step's identifier. -/
theorem C6_fatal_propagation (cfg : GenerationConfig) (env : Env) (s : String)
    (h : (execute_pipeline cfg env).fatalStep = some s) :
    (execute_pipeline cfg env).status = .failed
    ∧ (s = "fetch_tautulli" ∨ s = "render_template" ∨ s = "publish_ghost")
    ∧ ∃ m, (execute_pipeline cfg env).error_message
        = some ("Generation failed at " ++ s ++ ": " ++ m) := by
  have hspec := runSteps_spec cfg env
  cases hr : runSteps cfg env with
  | completed st url total =>
    simp [execute_pipeline, hr] at h
  | skippedEmpty st =>
    simp [execute_pipeline, hr] at h
  | cancelled st =>
    simp [execute_pipeline, hr, handle_cancellation] at h
  | fatal f =>
    rw [hr] at hspec
    have hm : FatalMaster cfg env f := hspec
    simp only [execute_pipeline, hr] at h ⊢
    have hfs : f.step = s := Option.some.inj h
    subst hfs
    obtain ⟨m, hme⟩ := hm.errT
    exact ⟨trivial, hm.stepIn, ⟨m, by rw [hme]; rfl⟩⟩

theorem C6_fatal_propagation_witness :
    (execute_pipeline demoCfg fatalEnv).fatalStep = some "fetch_tautulli"
    ∧ ((execute_pipeline demoCfg fatalEnv).status = .failed
      ∧ ("fetch_tautulli" = "fetch_tautulli" ∨ "fetch_tautulli" = "render_template"
        ∨ "fetch_tautulli" = "publish_ghost")
      ∧ ∃ m, (execute_pipeline demoCfg fatalEnv).error_message
          = some ("Generation failed at " ++ "fetch_tautulli" ++ ": " ++ m)) :=
  ⟨by decide, C6_fatal_propagation demoCfg fatalEnv "fetch_tautulli" (by decide)⟩

/-- C7 counterexample: the title template is resolved twice, each time from
the date observed at that call site; when the two observations straddle a
week boundary, the title placed in the rendering context and the title
passed to the publish call diverge even though the run succeeds. -/
theorem C7_counterexample :
    (execute_pipeline demoCfg driftEnv).status = .success
    ∧ (execute_pipeline demoCfg driftEnv).st.renderedTitle = some "Newsletter 2"
    ∧ (execute_pipeline demoCfg driftEnv).st.publishedTitle = some "Newsletter 3"
    ∧ (execute_pipeline demoCfg driftEnv).st.renderedTitle
      ≠ (execute_pipeline demoCfg driftEnv).st.publishedTitle := by
  decide

/-- C7 (amended): each resolved title is deterministically the configured
template resolved at the date context its own call site observed; whenever
the two observed date contexts coincide, the rendered and published titles
agree. -/
theorem C7_title_single_date (cfg : GenerationConfig) (env : Env) (a b : String)
    (hd : env.renderDate = env.publishDate)
    (hra : (execute_pipeline cfg env).st.renderedTitle = some a)
    (hpb : (execute_pipeline cfg env).st.publishedTitle = some b) :
    a = b := by
  have hti := execute_titleInv cfg env
  rcases hti.1 with h1 | h1
  · rw [h1] at hra
    exact absurd hra (by simp)
  · rcases hti.2 with h2 | h2
    · rw [h2] at hpb
      exact absurd hpb (by simp)
    · rw [h1] at hra
      rw [h2] at hpb
      have ha := Option.some.inj hra
      have hb := Option.some.inj hpb
      rw [hd] at ha
      exact ha.symm.trans hb

theorem C7_title_single_date_witness :
    demoEnv.renderDate = demoEnv.publishDate
    ∧ (execute_pipeline demoCfg demoEnv).st.renderedTitle = some "Newsletter 42"
    ∧ (execute_pipeline demoCfg demoEnv).st.publishedTitle = some "Newsletter 42"
    ∧ "Newsletter 42" = "Newsletter 42" :=
  ⟨by decide, by decide, by decide,
    C7_title_single_date demoCfg demoEnv "Newsletter 42" "Newsletter 42"
      (by decide) (by decide) (by decide)⟩

/-- C9: a run persisted as Failed publishes no terminal event — every event
of the run is non-terminal, the last published event is a `step_error`, and
folding the published events through the bus leaves the generation id
unmarked as completed, so the terminal-event rule never ends a subscriber
stream for it. -/
theorem C9_failed_no_terminal (cfg : GenerationConfig) (env : Env)
    (h : (execute_pipeline cfg env).status = .failed) :
    (∀ e ∈ (execute_pipeline cfg env).st.events, e.isTerminal = false)
    ∧ (∃ pre e, (execute_pipeline cfg env).st.events = pre ++ [e]
        ∧ e.type = "step_error")
    ∧ ((execute_pipeline cfg env).st.events.foldl publish busInit).completed = false := by
  have hspec := runSteps_spec cfg env
  cases hr : runSteps cfg env with
  | completed st url total =>
    simp [execute_pipeline, hr] at h
  | skippedEmpty st =>
    simp [execute_pipeline, hr] at h
  | cancelled st =>
    simp [execute_pipeline, hr, handle_cancellation] at h
  | fatal f =>
    rw [hr] at hspec
    have hm : FatalMaster cfg env f := hspec
    obtain ⟨r, hfr⟩ := Option.isSome_iff_exists.mp hm.present
    have hfs := fail_step_some f.st.tracker f.step f.errText r hfr
    obtain ⟨ev, h2eq, hty⟩ := map_eq_singleton _ _ _ hfs.2
    have hty' : ev.type = "step_error" := hty
    obtain ⟨pre, e2, hevs, hpre, hty2⟩ := hm.evs
    simp only [execute_pipeline, hr, hm.cur]
    rw [run_events, h2eq, hevs]
    have hallnt : ∀ e ∈ (pre ++ [e2]) ++ [ev], e.isTerminal = false := by
      intro x hx
      rcases List.mem_append.mp hx with hx1 | hx1
      · rcases List.mem_append.mp hx1 with hx2 | hx2
        · exact hpre x hx2
        · rcases List.mem_singleton.mp hx2 with rfl
          exact nonterminal_of_type _ "step_error" hty2 (by decide)
      · rcases List.mem_singleton.mp hx1 with rfl
        exact nonterminal_of_type _ "step_error" hty' (by decide)
    refine ⟨hallnt, ⟨pre ++ [e2], ev, rfl, hty'⟩, ?_⟩
    rw [foldl_publish_completed]
    simp only [busInit, Bool.false_or]
    exact List.any_eq_false.mpr (fun x hx => by simp [hallnt x hx])

theorem C9_failed_no_terminal_witness :
    (execute_pipeline demoCfg fatalEnv).status = .failed
    ∧ ((∀ e ∈ (execute_pipeline demoCfg fatalEnv).st.events, e.isTerminal = false)
      ∧ (∃ pre e, (execute_pipeline demoCfg fatalEnv).st.events = pre ++ [e]
          ∧ e.type = "step_error")
      ∧ ((execute_pipeline demoCfg fatalEnv).st.events.foldl publish
          busInit).completed = false) :=
  ⟨by decide, C9_failed_no_terminal demoCfg fatalEnv (by decide)⟩

end Ghostarr
